import Mathlib

/-!
Verification development for the helm upgrade preview tool
(`src/helm_preview`).  The Python sources of the CRD pipeline are embedded
shallowly: YAML trees become the inductive `Node`, Python `dict.get` becomes
`dGet`/`dGetOpt`, Python truthiness becomes `truthy`, and Python `==`
becomes `pyEq` (which identifies `True`/`1` and `False`/`0`, as Python does).
The external collaborators whose code is not part of the sources
(the generic diff engine in `helm_preview/diff/`, the stdlib `re` module
used on data-supplied patterns, and the subprocess runner) are passed in as
explicit parameters, so every theorem about the pipeline holds for any
choice of them.
-/

set_option maxHeartbeats 1000000

namespace HelmPreview

/-- A YAML/JSON tree as produced by `yaml.safe_load` for the documents this
tool consumes.  Floating point scalars do not occur in any of the analysed
code paths and are omitted. -/
inductive Node where
  | null : Node
  | bool : Bool → Node
  | int : Int → Node
  | str : String → Node
  | list : List Node → Node
  | map : List (String × Node) → Node
deriving Repr

/-- Python `dict.get(k)` on a string-keyed mapping (no default): the value of
the first binding of `k`, if any.  Python dictionaries have unique keys, so
first-binding lookup agrees with dictionary lookup. -/
def dGetOpt (m : List (String × Node)) (k : String) : Option Node :=
  match m with
  | [] => none
  | (k', v) :: rest => if k' = k then some v else dGetOpt rest k

/-- Python `dict.get(k, d)` on a string-keyed mapping with a default. -/
def dGet (m : List (String × Node)) (k : String) (d : Node) : Node :=
  match dGetOpt m k with
  | some v => v
  | none => d

/-- Python `k in d` for a string key on a mapping. -/
def hasKey (m : List (String × Node)) (k : String) : Bool :=
  match dGetOpt m k with
  | some _ => true
  | none => false

/-- Python truthiness of a value (`bool(x)`). -/
def truthy : Node → Bool
  | .null => false
  | .bool b => b
  | .int n => n != 0
  | .str s => !s.isEmpty
  | .list l => !l.isEmpty
  | .map m => !m.isEmpty

/-- Python truthiness of an optional value: `None` is falsy, otherwise the
truthiness of the value. -/
def truthyOpt : Option Node → Bool
  | none => false
  | some v => truthy v

theorem sizeOf_node_of_mem_list {x : Node} {l : List Node} (h : x ∈ l) :
    sizeOf x < sizeOf (Node.list l) := by
  have hx : sizeOf x < sizeOf l := List.sizeOf_lt_of_mem h
  simp only [Node.list.sizeOf_spec]
  omega

theorem sizeOf_node_of_mem_map {k : String} {v : Node}
    {m : List (String × Node)} (h : (k, v) ∈ m) :
    sizeOf v < sizeOf (Node.map m) := by
  have hx : sizeOf (k, v) < sizeOf m := List.sizeOf_lt_of_mem h
  have hv : sizeOf v < sizeOf (k, v) := by
    simp only [Prod.mk.sizeOf_spec]
    omega
  simp only [Node.map.sizeOf_spec]
  omega

theorem sizeOf_dGetOpt {m : List (String × Node)} {k : String} {v : Node}
    (h : dGetOpt m k = some v) : sizeOf v < sizeOf (Node.map m) := by
  induction m with
  | nil => simp [dGetOpt] at h
  | cons hd tl ih =>
    obtain ⟨k', v'⟩ := hd
    by_cases hk : k' = k
    · simp [dGetOpt, hk] at h
      subst h
      exact sizeOf_node_of_mem_map (List.mem_cons_self _ _)
    · simp [dGetOpt, hk] at h
      have := ih h
      simp only [Node.map.sizeOf_spec] at this ⊢
      simp only [List.cons.sizeOf_spec]
      omega

theorem dGet_cases {m : List (String × Node)} {k : String} {d v : Node}
    (h : dGet m k d = v) : dGetOpt m k = some v ∨ v = d := by
  unfold dGet at h
  cases hk : dGetOpt m k with
  | some w =>
    rw [hk] at h
    simp only [] at h
    subst h
    exact Or.inl rfl
  | none =>
    rw [hk] at h
    simp only [] at h
    exact Or.inr h.symm

mutual

/-- Python `==` on tree values.  Python identifies booleans with the
integers 0/1 (`True == 1`), compares lists pointwise, and compares
dictionaries by key set and per-key value, independent of insertion
order (`pyEqSub` checks each binding of the first mapping against the
second; together with equal key counts and Python's unique keys this is
dictionary equality). -/
def pyEq : Node → Node → Bool
  | .null, .null => true
  | .bool a, .bool b => a == b
  | .bool a, .int n => (if a then (1 : Int) else 0) == n
  | .int n, .bool a => n == (if a then (1 : Int) else 0)
  | .int a, .int b => a == b
  | .str a, .str b => a == b
  | .list a, .list b => pyEqList a b
  | .map a, .map b => a.length == b.length && pyEqSub a b
  | _, _ => false

def pyEqList : List Node → List Node → Bool
  | [], [] => true
  | a :: as, b :: bs => pyEq a b && pyEqList as bs
  | _, _ => false

def pyEqSub : List (String × Node) → List (String × Node) → Bool
  | [], _ => true
  | (k, v) :: rest, b =>
    (match dGetOpt b k with
     | some w => pyEq v w
     | none => false) && pyEqSub rest b

end

mutual

/-- Python `repr()` of a tree value, used by f-string `!r` interpolation.
String escaping of quotes and special characters inside `repr` of a string
is not reproduced (no analysed error message depends on it). -/
def pyRepr : Node → String
  | .null => "None"
  | .bool b => if b then "True" else "False"
  | .int n => toString n
  | .str s => "'" ++ s ++ "'"
  | .list l => "[" ++ ", ".intercalate (pyReprL l) ++ "]"
  | .map m => "\x7b" ++ ", ".intercalate (pyReprM m) ++ "\x7d"

def pyReprL : List Node → List String
  | [] => []
  | x :: xs => pyRepr x :: pyReprL xs

def pyReprM : List (String × Node) → List String
  | [] => []
  | (k, v) :: xs => ("'" ++ k ++ "': " ++ pyRepr v) :: pyReprM xs

end

/-- Python `str()` of a tree value, used by plain f-string interpolation. -/
def pyStr : Node → String
  | .null => "None"
  | .bool b => if b then "True" else "False"
  | .int n => toString n
  | .str s => s
  | .list l => pyRepr (.list l)
  | .map m => pyRepr (.map m)

/-- Python `type(x).__name__` for the tree values of the model. -/
def pyTypeName : Node → String
  | .null => "NoneType"
  | .bool _ => "bool"
  | .int _ => "int"
  | .str _ => "str"
  | .list _ => "list"
  | .map _ => "dict"

/-- Python `x in l` for a tree value and a list (membership via `==`). -/
def pyMem (x : Node) (l : List Node) : Bool :=
  l.any (fun y => pyEq x y)

/-! ### A matcher for the fixed path regexes of `crd/classifier.py`

`crd/classifier.py` matches paths against fixed regular expressions via the
stdlib `re` module.  The patterns use only literals, `\d`, `\w`, `.`
(any char), `+`, `*`, alternation and anchors, so they are embedded as
regular-expression terms and matched with Brzozowski derivatives.
`re.match` is prefix matching anchored at the start; a pattern ending in
`$` under `re.match` is a full match; `re.search` tries every start
position.  `\d`/`\w` are modelled as ASCII digit/word characters (the
Unicode extension of Python's `re` never differs on the ASCII dot-paths the
diff engine produces). -/

inductive RE where
  | emp : RE
  | eps : RE
  | chr : Char → RE
  | cls : (Char → Bool) → RE
  | seq : RE → RE → RE
  | alt : RE → RE → RE
  | star : RE → RE

/-- Sequencing that simplifies the empty language and the empty word. -/
def mkSeq (a b : RE) : RE :=
  match a, b with
  | .emp, _ => .emp
  | _, .emp => .emp
  | .eps, r => r
  | r, .eps => r
  | a, b => .seq a b

/-- Alternation that simplifies the empty language. -/
def mkAlt (a b : RE) : RE :=
  match a, b with
  | .emp, r => r
  | r, .emp => r
  | a, b => .alt a b

/-- Does the regex accept the empty word? -/
def nullable : RE → Bool
  | .emp => false
  | .eps => true
  | .chr _ => false
  | .cls _ => false
  | .seq a b => nullable a && nullable b
  | .alt a b => nullable a || nullable b
  | .star _ => true

/-- Brzozowski derivative by one character. -/
def deriv : RE → Char → RE
  | .emp, _ => .emp
  | .eps, _ => .emp
  | .chr a, c => if a = c then .eps else .emp
  | .cls p, c => if p c then .eps else .emp
  | .seq a b, c =>
    mkAlt (mkSeq (deriv a c) b) (if nullable a then deriv b c else .emp)
  | .alt a b, c => mkAlt (deriv a c) (deriv b c)
  | .star r, c => mkSeq (deriv r c) (.star r)

/-- Does the regex accept exactly this word? -/
def accepts : RE → List Char → Bool
  | r, [] => nullable r
  | r, c :: cs => accepts (deriv r c) cs

/-- Does the regex accept some prefix of the word? (`re.match`) -/
def matchesPref : RE → List Char → Bool
  | r, [] => nullable r
  | r, c :: cs => nullable r || matchesPref (deriv r c) cs

/-- Does the regex accept a prefix of some suffix of the word? (`re.search`) -/
def search : RE → List Char → Bool
  | r, [] => nullable r
  | r, c :: cs => matchesPref r (c :: cs) || search r cs

/-- Does the regex accept some whole suffix of the word?
(`re.search` for a pattern anchored with `$`) -/
def searchEnd : RE → List Char → Bool
  | r, [] => nullable r
  | r, c :: cs => accepts r (c :: cs) || searchEnd r cs

/-- The literal string `s`, continued by `k`. -/
def catRE (s : String) (k : RE) : RE :=
  s.data.foldr (fun c r => .seq (.chr c) r) k

/-- The literal string `s`. -/
def strE (s : String) : RE := catRE s .eps

/-- `\d` (ASCII). -/
def digitC : RE := .cls Char.isDigit

/-- `\w` (ASCII). -/
def wordC : RE := .cls (fun c => c.isAlphanum || c == '_')

/-- `.` — any character but a newline (no DOTALL flag is used). -/
def dotC : RE := .cls (fun c => c != '\n')

/-- `r+`. -/
def plusRE (r : RE) : RE := .seq r (.star r)

/-- A syntactic under-approximation of "every word the regex accepts
contains a character satisfying `p`" — used to refute matches against
words that lack such a character. -/
def mustHave (p : Char → Bool) : RE → Bool
  | .emp => true
  | .eps => false
  | .chr c => p c
  | .cls _ => false
  | .seq a b => mustHave p a || mustHave p b
  | .alt a b => mustHave p a && mustHave p b
  | .star _ => false

/-- `re.match` on a string. -/
def reMatch (r : RE) (s : String) : Bool := matchesPref r s.data

/-- Full match (`re.match` of a pattern anchored with `$`). -/
def reFull (r : RE) (s : String) : Bool := accepts r s.data

/-- `re.search` on a string. -/
def reSearch (r : RE) (s : String) : Bool := search r s.data

/-- `re.search` of a pattern anchored with `$`. -/
def reSearchEnd (r : RE) (s : String) : Bool := searchEnd r s.data

/-! ### Data model

The dataclasses below are declared in `helm_preview/crd/report.py` (which is
among the sources) and, for `Resource`/`ResourcePair`/`FieldChange`/
`RiskLevel`/`RiskAnnotation`/`OwnershipInfo`, in `helm_preview/parser/
manifest.py`, `helm_preview/diff/engine.py`, `helm_preview/analysis/risk.py`
and `helm_preview/analysis/ownership.py`, which are not under the provided
sources; those shapes are modelled from the spec (section 3, DATA MODEL),
which fixes their attributes exactly. -/

/-- Modelled from the spec: `Resource` (spec section 3) — parsed cluster
object with `api_version`, `kind`, `namespace`, `name`, `body` (the original
mapping) and `raw`. -/
structure Resource where
  api_version : String
  kind : String
  «namespace» : String
  name : String
  body : List (String × Node)
  raw : String

/-- Modelled from the spec: `ResourcePair` (spec section 3) — a matched
old/new pair with a status string. -/
structure ResourcePair where
  old : Option Resource
  new : Option Resource
  status : String

/-- Modelled from the spec: `FieldChange` (spec section 3) — one atomic
difference, with a dot-path, the two values, and a change-type string. -/
structure FieldChange where
  path : String
  old_value : Node
  new_value : Node
  change_type : String

/-- Modelled from the spec: `RiskLevel` (spec section 3) with the defined
order SAFE < WARNING < DANGER. -/
inductive RiskLevel where
  | SAFE : RiskLevel
  | WARNING : RiskLevel
  | DANGER : RiskLevel
deriving DecidableEq, Repr

/-- The rank used by `CrdChangeDetail.max_risk` in `crd/report.py`
(`order = {SAFE: 0, WARNING: 1, DANGER: 2}`). -/
def RiskLevel.rank : RiskLevel → Nat
  | .SAFE => 0
  | .WARNING => 1
  | .DANGER => 2

/-- Modelled from the spec: `RiskAnnotation` (spec section 3). -/
structure RiskAnnotation where
  level : RiskLevel
  rule : String
  message : String
  path : String
deriving DecidableEq, Repr

/-- Modelled from the spec: `OwnershipInfo` (spec section 3) —
`manager ∈ {helm, argocd, flux, unknown}` as strings (the code compares
`ownership.manager` against string literals), optional release and app. -/
structure OwnershipInfo where
  manager : String
  release : Option String
  app : Option String

/-- `CrdChangeDetail` from `crd/report.py`. -/
structure CrdChangeDetail where
  name : String
  status : String
  changes : List FieldChange
  risk_annotations : List RiskAnnotation
  stored_version_warnings : List String
  schema_validation_errors : List String
  ownership_conflict : Option String

/-- `CrdChangeDetail.max_risk` from `crd/report.py`: SAFE when there are no
annotations, otherwise the level of `max(risk_annotations, key=order[level])`.
Python's `max` returns the first annotation attaining the maximal rank; only
its level is used, which equals the fold of the rank-maximum below. -/
def CrdChangeDetail.max_risk (d : CrdChangeDetail) : RiskLevel :=
  d.risk_annotations.foldl
    (fun m a => if m.rank < a.level.rank then a.level else m) .SAFE

/-- `NewCrdInfo` from `crd/report.py`.  The `group`/`kind`/`versions` fields
are populated from untyped `dict.get` calls in `detect_new.py`, so they are
tree values here. -/
structure NewCrdInfo where
  name : String
  group : Node
  kind : Node
  versions : List Node

/-- `PolicyResult` from `crd/report.py`. -/
structure PolicyResult where
  mode : String
  blocked : Bool
  message : String
  exit_code : Int

/-- `CrdReport` from `crd/report.py`. -/
structure CrdReport where
  crds : List CrdChangeDetail
  new_crds : List NewCrdInfo
  policy_result : Option PolicyResult
  warnings : List String

/-- `CrdReport.has_dangers` from `crd/report.py`. -/
def CrdReport.has_dangers (r : CrdReport) : Bool :=
  r.crds.any (fun c => c.max_risk matches .DANGER)

/-! ### `crd/policy.py` -/

/-- `CrdPolicyMode` from `crd/policy.py`. -/
inductive CrdPolicyMode where
  | IGNORE : CrdPolicyMode
  | WARN : CrdPolicyMode
  | FAIL : CrdPolicyMode
deriving DecidableEq, Repr

/-- The `value` of each enum member in `crd/policy.py`. -/
def CrdPolicyMode.value : CrdPolicyMode → String
  | .IGNORE => "ignore"
  | .WARN => "warn"
  | .FAIL => "fail"

/-- `evaluate_policy` from `crd/policy.py`. -/
def evaluate_policy (report : CrdReport) (mode : CrdPolicyMode) : PolicyResult :=
  if mode = .IGNORE then
    { mode := mode.value
      blocked := false
      message := "CRD policy: ignore (all CRD issues suppressed)"
      exit_code := 0 }
  else
    let danger_crds := report.crds.filter (fun c => c.max_risk matches .DANGER)
    let warning_crds := report.crds.filter (fun c => c.max_risk matches .WARNING)
    if mode = .WARN then
      let parts : List String :=
        (if !danger_crds.isEmpty then
          [toString danger_crds.length ++ " CRD(s) with DANGER-level changes: " ++
            ", ".intercalate (danger_crds.map (fun c => c.name))]
         else []) ++
        (if !warning_crds.isEmpty then
          [toString warning_crds.length ++ " CRD(s) with WARNING-level changes: " ++
            ", ".intercalate (warning_crds.map (fun c => c.name))]
         else [])
      let msg :=
        if parts.isEmpty then "CRD policy: warn (no issues found)"
        else "CRD policy: warn - " ++ "; ".intercalate parts
      { mode := mode.value, blocked := false, message := msg, exit_code := 0 }
    else
      if !danger_crds.isEmpty then
        { mode := mode.value
          blocked := true
          message := "CRD policy: fail - " ++ toString danger_crds.length ++
            " CRD(s) with DANGER-level changes: " ++
            ", ".intercalate (danger_crds.map (fun c => c.name))
          exit_code := 1 }
      else if !warning_crds.isEmpty then
        { mode := mode.value
          blocked := false
          message := "CRD policy: fail (passed) - " ++ toString warning_crds.length ++
            " CRD(s) with WARNING-level changes: " ++
            ", ".intercalate (warning_crds.map (fun c => c.name))
          exit_code := 0 }
      else
        { mode := mode.value
          blocked := false
          message := "CRD policy: fail (passed) - no issues found"
          exit_code := 0 }

/-! ### `crd/classifier.py` -/

/-- `^metadata\.(annotations|labels)\.` (rule `crd_metadata_change`). -/
def reMetadataChange : RE :=
  catRE "metadata." (.seq (.alt (strE "annotations") (strE "labels")) (.chr '.'))

/-- `spec\.versions\[\d+\]\.additionalPrinterColumns`
(rule `crd_printer_columns`). -/
def rePrinterColumns : RE :=
  catRE "spec.versions[" (.seq (plusRE digitC) (strE "].additionalPrinterColumns"))

/-- `^spec\.versions\[\d+\]$` (rules `crd_version_added` /
`crd_version_removed`; under `re.match` the anchors make it a full match). -/
def reVersionEntry : RE :=
  catRE "spec.versions[" (.seq (plusRE digitC) (strE "]"))

/-- `spec\.versions\[\d+\]\.schema\.openAPIV3Schema\.properties\.\w+\.properties\.\w+`
(rule `crd_optional_property_added`). -/
def reOptionalProp : RE :=
  catRE "spec.versions[" (.seq (plusRE digitC)
    (catRE "].schema.openAPIV3Schema.properties."
      (.seq (plusRE wordC) (catRE ".properties." (plusRE wordC)))))

/-- `\.required` (the negative condition of `crd_optional_property_added`). -/
def reRequiredAnywhere : RE := strE ".required"

/-- `spec\.versions\[\d+\]\.schema\..*\.required`
(rules `crd_required_field_added` / `crd_required_field_removed` /
`crd_required_changed`). -/
def reSchemaRequired : RE :=
  catRE "spec.versions[" (.seq (plusRE digitC)
    (catRE "].schema." (.seq (.star dotC) (strE ".required"))))

/-- `spec\.versions\[\d+\]\.schema\..*\.properties\.\w+$`
(rule `crd_property_removed`). -/
def reSchemaPropEnd : RE :=
  catRE "spec.versions[" (.seq (plusRE digitC)
    (catRE "].schema." (.seq (.star dotC) (catRE ".properties." (plusRE wordC)))))

/-- `spec\.versions\[\d+\]\.schema\..*\.properties\.\w+\.type$`
(rule `crd_type_changed`). -/
def reSchemaPropType : RE :=
  catRE "spec.versions[" (.seq (plusRE digitC)
    (catRE "].schema." (.seq (.star dotC)
      (catRE ".properties." (.seq (plusRE wordC) (strE ".type"))))))

/-- `spec\.versions\[\d+\]\.schema\..*\.properties\.\w+\.default$`
(rule `crd_default_changed`). -/
def reSchemaPropDefault : RE :=
  catRE "spec.versions[" (.seq (plusRE digitC)
    (catRE "].schema." (.seq (.star dotC)
      (catRE ".properties." (.seq (plusRE wordC) (strE ".default"))))))

/-- `spec\.versions\[\d+\]\.schema\..*\.properties\.\w+\.pattern$`
(rule `crd_pattern_changed`). -/
def reSchemaPropPattern : RE :=
  catRE "spec.versions[" (.seq (plusRE digitC)
    (catRE "].schema." (.seq (.star dotC)
      (catRE ".properties." (.seq (plusRE wordC) (strE ".pattern"))))))

/-- `spec\.versions\[\d+\]\.schema\..*\.properties\.\w+\.(minimum|maximum)$`
(rule `crd_range_changed`). -/
def reSchemaPropRange : RE :=
  catRE "spec.versions[" (.seq (plusRE digitC)
    (catRE "].schema." (.seq (.star dotC)
      (catRE ".properties." (.seq (plusRE wordC)
        (.seq (.chr '.') (.alt (strE "minimum") (strE "maximum"))))))))

/-- `spec\.versions\[\d+\]\.schema\..*\.properties\.\w+\.enum`
(rule `crd_enum_changed`). -/
def reSchemaPropEnum : RE :=
  catRE "spec.versions[" (.seq (plusRE digitC)
    (catRE "].schema." (.seq (.star dotC)
      (catRE ".properties." (.seq (plusRE wordC) (strE ".enum"))))))

/-- `^spec\.conversion\.webhook\.` (rule `crd_webhook_changed`; the source
uses `re.search`, but a `^`-anchored pattern under `re.search` is prefix
matching). -/
def reWebhook : RE := strE "spec.conversion.webhook."

/-- The ` _annotation` helper from `crd/classifier.py`. -/
def _annotation (level : RiskLevel) (rule message path : String) : RiskAnnotation :=
  { level := level, rule := rule, message := message, path := path }

/-- `_classify_single` from `crd/classifier.py`: the ordered rule cascade. -/
def _classify_single (fc : FieldChange) : RiskAnnotation :=
  let path := fc.path
  let change_type := fc.change_type
  if reMatch reMetadataChange path then
    _annotation .SAFE "crd_metadata_change"
      ("Metadata change at '" ++ path ++ "'") path
  else if reSearch rePrinterColumns path then
    _annotation .SAFE "crd_printer_columns"
      ("Printer column change at '" ++ path ++ "'") path
  else if reFull reVersionEntry path && change_type == "item_added" then
    _annotation .SAFE "crd_version_added" "New CRD version added" path
  else if reSearch reOptionalProp path && change_type == "item_added" &&
      !(reSearch reRequiredAnywhere path) then
    _annotation .SAFE "crd_optional_property_added"
      ("New optional property added at '" ++ path ++ "'") path
  else if reFull reVersionEntry path && change_type == "item_removed" then
    _annotation .DANGER "crd_version_removed" "CRD version removed" path
  else if reSearch reSchemaRequired path && change_type == "item_added" then
    _annotation .DANGER "crd_required_field_added"
      ("New required field added at '" ++ path ++ "'") path
  else if reSearchEnd reSchemaPropEnd path && change_type == "item_removed" then
    _annotation .DANGER "crd_property_removed"
      ("Schema property removed at '" ++ path ++ "'") path
  else if reSearchEnd reSchemaPropType path && change_type == "value_changed" then
    _annotation .DANGER "crd_type_changed"
      ("Property type changed at '" ++ path ++ "'") path
  else if path == "spec.scope" && change_type == "value_changed" then
    _annotation .DANGER "crd_scope_changed"
      ("CRD scope changed from '" ++ pyStr fc.old_value ++ "' to '" ++
        pyStr fc.new_value ++ "'") path
  else if path == "spec.conversion.strategy" && change_type == "value_changed" then
    _annotation .DANGER "crd_conversion_strategy_changed"
      ("Conversion strategy changed from '" ++ pyStr fc.old_value ++ "' to '" ++
        pyStr fc.new_value ++ "'") path
  else if reSearchEnd reSchemaPropDefault path && change_type == "value_changed" then
    _annotation .WARNING "crd_default_changed"
      ("Default value changed at '" ++ path ++ "'") path
  else if reSearchEnd reSchemaPropPattern path && change_type == "value_changed" then
    _annotation .WARNING "crd_pattern_changed"
      ("Validation pattern changed at '" ++ path ++ "'") path
  else if reSearchEnd reSchemaPropRange path && change_type == "value_changed" then
    _annotation .WARNING "crd_range_changed"
      ("Validation range changed at '" ++ path ++ "'") path
  else if reSearch reSchemaPropEnum path then
    _annotation .WARNING "crd_enum_changed"
      ("Enum values changed at '" ++ path ++ "'") path
  else if reMatch reWebhook path then
    _annotation .WARNING "crd_webhook_changed"
      ("Conversion webhook configuration changed at '" ++ path ++ "'") path
  else
    let fallback :=
      _annotation .WARNING "crd_unknown_change"
        ("Unknown CRD change at '" ++ path ++ "'") path
    if reSearch reSchemaRequired path then
      if change_type == "item_removed" then
        _annotation .SAFE "crd_required_field_removed"
          ("Required field constraint removed at '" ++ path ++ "'") path
      else if change_type == "value_changed" then
        _annotation .DANGER "crd_required_changed"
          ("Required fields changed at '" ++ path ++ "'") path
      else fallback
    else fallback

/-- `classify_crd_changes` from `crd/classifier.py`: the for-append loop is
a map of `_classify_single` over the changes. -/
def classify_crd_changes (changes : List FieldChange) : List RiskAnnotation :=
  changes.map _classify_single

/-- A change matches none of the seventeen specific rules of
`_classify_single` (the negation of each guard, in source order; the last
conjunct covers both specific outcomes of the final `required` block). -/
def matchesNoSpecificRule (fc : FieldChange) : Bool :=
  let path := fc.path
  let ct := fc.change_type
  !(reMatch reMetadataChange path) &&
  !(reSearch rePrinterColumns path) &&
  !(reFull reVersionEntry path && ct == "item_added") &&
  !(reSearch reOptionalProp path && ct == "item_added" &&
    !(reSearch reRequiredAnywhere path)) &&
  !(reFull reVersionEntry path && ct == "item_removed") &&
  !(reSearch reSchemaRequired path && ct == "item_added") &&
  !(reSearchEnd reSchemaPropEnd path && ct == "item_removed") &&
  !(reSearchEnd reSchemaPropType path && ct == "value_changed") &&
  !(path == "spec.scope" && ct == "value_changed") &&
  !(path == "spec.conversion.strategy" && ct == "value_changed") &&
  !(reSearchEnd reSchemaPropDefault path && ct == "value_changed") &&
  !(reSearchEnd reSchemaPropPattern path && ct == "value_changed") &&
  !(reSearchEnd reSchemaPropRange path && ct == "value_changed") &&
  !(reSearch reSchemaPropEnum path) &&
  !(reMatch reWebhook path) &&
  !(reSearch reSchemaRequired path && (ct == "item_removed" || ct == "value_changed"))

/-! ### `crd/stored_versions.py` -/

/-- The f-string built for each orphaned stored version in
`check_stored_version_safety`. -/
def storedVersionWarning (sv : Node) : String :=
  "Stored version '" ++ pyStr sv ++
    "' is still in status.storedVersions but is being removed from " ++
    "spec.versions. Existing objects stored as '" ++ pyStr sv ++
    "' may become inaccessible. Migrate objects before removing the version."

/-- `{v.get("name", "") for v in versions}` in `check_stored_version_safety`
(set membership over it is list membership via `==`).  Non-mapping entries
raise in Python and are skipped here (outside every theorem below). -/
def newVersionNames (vs : List Node) : List Node :=
  vs.filterMap (fun v =>
    match v with
    | .map vm => some (dGet vm "name" (.str ""))
    | _ => none)

/-- `check_stored_version_safety` from `crd/stored_versions.py`.

The wildcard match arms model inputs on which the Python raises
(`.get` on a non-mapping, iterating a non-list): those are outside the
shapes a CRD can have and outside every theorem below, which restricts to
mapping/list-shaped `status.storedVersions` and `spec.versions`. -/
def check_stored_version_safety (old_crd new_crd : Resource) : List String :=
  match dGet old_crd.body "status" (.map []) with
  | .map st =>
    let stored_versions := dGet st "storedVersions" (.list [])
    if !truthy stored_versions then []
    else
      match stored_versions with
      | .list svs =>
        match dGet new_crd.body "spec" (.map []) with
        | .map sp =>
          match dGet sp "versions" (.list []) with
          | .list vs =>
            svs.filterMap (fun sv =>
              if pyMem sv (newVersionNames vs) then none
              else some (storedVersionWarning sv))
          | _ => []
        | _ => []
      | _ => []
  | _ => []

/-! ### `crd/schema_validator.py`

The validator's only use of the stdlib `re` module applies a
**data-supplied** pattern, so that engine cannot be embedded as a fixed
term; it is taken as an oracle `rmatch : String → String → Option Bool`
(`none` models a malformed pattern raising `re.error`, which the source
swallows). -/

/-- `_check_type` from `crd/schema_validator.py`: `None` passes any type;
unknown or non-string types are not rejected; a boolean is explicitly NOT
an integer (although `bool` is a subclass of `int` in Python, and therefore
DOES pass the `number` check, which has no such exclusion). -/
def _check_type (value : Node) (schema_type : Node) : Bool :=
  match value with
  | .null => true
  | v =>
    match schema_type with
    | .str t =>
      if t == "string" then v matches .str _
      else if t == "integer" then v matches .int _
      else if t == "number" then (v matches .int _) || (v matches .bool _)
      else if t == "boolean" then v matches .bool _
      else if t == "object" then v matches .map _
      else if t == "array" then v matches .list _
      else true
    | _ => true

/-- The error format shared by every message `_validate_object` emits:
each f-string in the source begins with `At '{path}': `. -/
def atErr (path msg : String) : String := "At '" ++ path ++ "': " ++ msg

/-- Python numeric view used by the `minimum`/`maximum` checks
(`isinstance(value, (int, float))` — booleans count as integers there). -/
def pyNum : Node → Option Int
  | .int n => some n
  | .bool b => some (if b then 1 else 0)
  | _ => none

theorem sizeOf_list_pos {α : Type} [SizeOf α] (l : List α) :
    0 < sizeOf l := by
  cases l with
  | nil => simp
  | cons a tl => simp only [List.cons.sizeOf_spec]; omega

/-- `schema.get("type")` as used by `_validate_object` for the `==`
comparisons (`None` when absent, i.e. null in the tree model). -/
def stypeOf (sm : List (String × Node)) : Node :=
  match dGetOpt sm "type" with
  | some t => t
  | none => Node.null

/-- The guard `if schema_type and not _check_type(value, schema_type)` of
`_validate_object` (with `schema_type`'s truthiness). -/
def _typeFails (value : Node) (sm : List (String × Node)) : Bool :=
  match dGetOpt sm "type" with
  | some t => truthy t && !(_check_type value t)
  | none => false

/-- The type-mismatch message of `_validate_object`. -/
def _typeErrMsg (value : Node) (sm : List (String × Node)) (path : String) :
    String :=
  atErr path ("expected type '" ++ pyStr (stypeOf sm) ++ "', got '" ++
    pyTypeName value ++ "'")

/-- The `enum` check of `_validate_object`.  A non-list enum raises
`TypeError` in Python on `value not in ...`; not modelled. -/
def _enumErrs (value : Node) (sm : List (String × Node)) (path : String) :
    List String :=
  match dGetOpt sm "enum" with
  | some (.list l) =>
    if !(pyMem value l) then
      [atErr path ("value " ++ pyRepr value ++ " not in enum " ++
        pyStr (.list l))]
    else []
  | _ => []

/-- The `pattern` check of `_validate_object`: only string values against a
string pattern; `rmatch = none` models `re.error`, which is swallowed. -/
def _patternErrs (rmatch : String → String → Option Bool) (value : Node)
    (sm : List (String × Node)) (path : String) : List String :=
  match dGetOpt sm "pattern", value with
  | some (.str ps), .str s =>
    match rmatch ps s with
    | some b =>
      if !b then
        [atErr path ("value '" ++ s ++ "' does not match pattern '" ++
          ps ++ "'")]
      else []
    | none => []
  | _, _ => []

/-- The `minimum` check of `_validate_object` (`isinstance(value, (int,
float))` — booleans count; a non-numeric bound raises and is not
modelled). -/
def _minErrs (value : Node) (sm : List (String × Node)) (path : String) :
    List String :=
  match dGetOpt sm "minimum" with
  | some m =>
    match pyNum value, pyNum m with
    | some a, some b =>
      if a < b then
        [atErr path ("value " ++ pyStr value ++ " < minimum " ++ pyStr m)]
      else []
    | _, _ => []
  | none => []

/-- The `maximum` check of `_validate_object`. -/
def _maxErrs (value : Node) (sm : List (String × Node)) (path : String) :
    List String :=
  match dGetOpt sm "maximum" with
  | some m =>
    match pyNum value, pyNum m with
    | some a, some b =>
      if a > b then
        [atErr path ("value " ++ pyStr value ++ " > maximum " ++ pyStr m)]
      else []
    | _, _ => []
  | none => []

/-- The `required[]` check of `_validate_object`: one error per required
name with no `==`-equal key in the value (a non-list `required` iterates
differently in Python and is not modelled). -/
def _requiredErrs (sm vm : List (String × Node)) (path : String) :
    List String :=
  match dGet sm "required" (.list []) with
  | .list reqs =>
    reqs.filterMap (fun req =>
      if vm.any (fun kv => pyEq req (.str kv.1)) then none
      else some (atErr path ("missing required field '" ++ pyStr req ++ "'")))
  | _ => []

/-- The `additionalProperties is False` check of `_validate_object`:
unknown keys other than the four envelope keys are errors. -/
def _unknownFieldErrs (pm vm : List (String × Node)) (path : String) :
    List String :=
  vm.filterMap (fun kv =>
    if !(hasKey pm kv.1) &&
        !(kv.1 == "apiVersion" || kv.1 == "kind" ||
          kv.1 == "metadata" || kv.1 == "status") then
      some (atErr path ("unknown field '" ++ kv.1 ++ "'"))
    else none)

mutual

/-- `_validate_object` from `crd/schema_validator.py`: the recursive
OpenAPI v3 walker.  Each sequential block of the source function is one of
the helper definitions above/below, in source order; wildcard arms stand
for shapes on which the Python raises (non-mapping `properties`, non-list
`required`, unhashable required entries, non-numeric bounds): no theorem
below touches them.  An absent `items` key recurses with the empty schema
`{}`, on which the walker returns no errors, so that branch is inlined as
`[]`. -/
def _validate_object (rmatch : String → String → Option Bool)
    (value schema : Node) (path : String) : List String :=
  match schema with
  | .map sm =>
    if _typeFails value sm then [_typeErrMsg value sm path]
    else
      _enumErrs value sm path ++ _patternErrs rmatch value sm path ++
        _minErrs value sm path ++ _maxErrs value sm path ++
        _objErrs rmatch value sm path ++ _arrErrs rmatch value sm path
  | _ => []
termination_by (sizeOf schema, 10)

/-- The `schema_type == "object"` block of `_validate_object`: required
fields, known properties, and the `additionalProperties` handling. -/
def _objErrs (rmatch : String → String → Option Bool) (value : Node)
    (sm : List (String × Node)) (path : String) : List String :=
  match value with
  | .map vm =>
    if pyEq (stypeOf sm) (.str "object") then
      match hpm : dGet sm "properties" (.map []) with
      | .map pm =>
        _requiredErrs sm vm path ++ _validateProps rmatch vm path pm ++
          _additionalErrs rmatch pm sm path vm
      | _ => []
    else []
  | _ => []
termination_by (sizeOf (Node.map sm), 5)
decreasing_by
  · apply Prod.Lex.left
    rcases dGet_cases hpm with hsome | hdef
    · have h2 := sizeOf_dGetOpt hsome
      simp only [Node.map.sizeOf_spec] at h2 ⊢
      omega
    · injection hdef with hpm'
      subst hpm'
      simp only [Node.map.sizeOf_spec, List.nil.sizeOf_spec]
      exact Nat.lt_add_of_pos_right (sizeOf_list_pos _)
  · apply Prod.Lex.right
    omega

/-- The `additionalProperties` dispatch of `_validate_object`. -/
def _additionalErrs (rmatch : String → String → Option Bool)
    (pm sm : List (String × Node)) (path : String)
    (vm : List (String × Node)) : List String :=
  match had : dGetOpt sm "additionalProperties" with
  | some (.bool false) => _unknownFieldErrs pm vm path
  | some (.map am) => _validateUnknown rmatch pm am path vm
  | _ => []
termination_by (sizeOf (Node.map sm), 4)
decreasing_by
  apply Prod.Lex.left
  exact sizeOf_dGetOpt had

/-- The `schema_type == "array"` block of `_validate_object`. -/
def _arrErrs (rmatch : String → String → Option Bool) (value : Node)
    (sm : List (String × Node)) (path : String) : List String :=
  match value with
  | .list items =>
    if pyEq (stypeOf sm) (.str "array") then
      match hit : dGetOpt sm "items" with
      | some ischema => _validateItems rmatch ischema path 0 items
      | none => []
    else []
  | _ => []
termination_by (sizeOf (Node.map sm), 5)
decreasing_by
  apply Prod.Lex.left
  exact sizeOf_dGetOpt hit

/-- The known-properties loop of `_validate_object`. -/
def _validateProps (rmatch : String → String → Option Bool)
    (vm : List (String × Node)) (path : String) :
    List (String × Node) → List String
  | [] => []
  | (pname, pschema) :: rest =>
    (if hasKey vm pname then
      _validate_object rmatch (dGet vm pname Node.null) pschema
        (if path == "" then pname else path ++ "." ++ pname)
     else []) ++ _validateProps rmatch vm path rest
termination_by props => (sizeOf props, 11)
decreasing_by
  · apply Prod.Lex.left
    simp only [List.cons.sizeOf_spec, Prod.mk.sizeOf_spec]
    omega
  · apply Prod.Lex.left
    simp only [List.cons.sizeOf_spec, Prod.mk.sizeOf_spec]
    omega

/-- The unknown-keys loop of `_validate_object` for a mapping-valued
`additionalProperties`. -/
def _validateUnknown (rmatch : String → String → Option Bool)
    (pm am : List (String × Node)) (path : String) :
    List (String × Node) → List String
  | [] => []
  | (k, v) :: rest =>
    (if !(hasKey pm k) then
      _validate_object rmatch v (.map am)
        (if path == "" then k else path ++ "." ++ k)
     else []) ++ _validateUnknown rmatch pm am path rest
termination_by l => (sizeOf (Node.map am), sizeOf l + 11)
decreasing_by
  · apply Prod.Lex.right
    omega
  · apply Prod.Lex.right
    simp only [List.cons.sizeOf_spec, Prod.mk.sizeOf_spec]
    omega

/-- The array-items loop of `_validate_object`. -/
def _validateItems (rmatch : String → String → Option Bool)
    (ischema : Node) (path : String) (i : Nat) : List Node → List String
  | [] => []
  | item :: rest =>
    _validate_object rmatch item ischema (path ++ "[" ++ toString i ++ "]") ++
      _validateItems rmatch ischema path (i + 1) rest
termination_by l => (sizeOf ischema, sizeOf l + 11)
decreasing_by
  · apply Prod.Lex.right
    omega
  · apply Prod.Lex.right
    simp only [List.cons.sizeOf_spec]
    omega

end

/-- The per-CR error prefix built in `validate_crs_against_schema`:
`f"{namespace}/{name}" if namespace else name`. -/
def crErrPrefix (md : List (String × Node)) : String :=
  let name := dGet md "name" (.str "<unknown>")
  let ns := dGet md "namespace" (.str "")
  if truthy ns then pyStr ns ++ "/" ++ pyStr name else pyStr name

/-- `validate_crs_against_schema` from `crd/schema_validator.py`.  Each CR
body is expected to be a mapping (the Python raises on `.get` otherwise;
the wildcard arms are outside every theorem below). -/
def validate_crs_against_schema (rmatch : String → String → Option Bool)
    (crs : List Node) (schema : Node) : List String :=
  crs.flatMap (fun cr =>
    match cr with
    | .map cm =>
      match dGet cm "metadata" (.map []) with
      | .map md =>
        (_validate_object rmatch cr schema "").map
          (fun err => crErrPrefix md ++ ": " ++ err)
      | _ => []
    | _ => [])

/-- The loop body of `find_schema_for_version` from
`crd/schema_validator.py`. -/
def findSchemaIn : List Node → Node → Option Node
  | [], _ => none
  | v :: rest, version =>
    match v with
    | .map vm =>
      if pyEq (dGet vm "name" Node.null) version then
        match dGet vm "schema" (.map []) with
        | .map schm => dGetOpt schm "openAPIV3Schema"
        | _ => none
      else findSchemaIn rest version
    | _ => findSchemaIn rest version

/-- `find_schema_for_version` from `crd/schema_validator.py`. -/
def find_schema_for_version (crd_body : List (String × Node))
    (version : Node) : Option Node :=
  match dGet crd_body "spec" (.map []) with
  | .map sp =>
    match dGet sp "versions" (.list []) with
    | .list vs => findSchemaIn vs version
    | _ => none
  | _ => none

/-! ### `crd/ownership.py` -/

/-- First string-valued binding of a key, as `labels.get(k)` produces for
the string-valued labels/annotations this detector inspects. -/
def getStrOpt (m : List (String × Node)) (k : String) : Option String :=
  match dGetOpt m k with
  | some (.str s) => some s
  | _ => none

/-- Modelled from the spec: `detect_ownership` lives in
`helm_preview/analysis/ownership.py`, which is not among the provided
sources.  Spec section 4.4.2: the first matching family wins in the order
Helm → ArgoCD → Flux; Helm matches on the
`app.kubernetes.io/managed-by=Helm` label or the
`meta.helm.sh/release-name` annotation, with `release` taken from that
annotation and `app` from the `app.kubernetes.io/name` label; ArgoCD on the
`app.kubernetes.io/instance` label together with an `argocd.argoproj.io/*`
annotation; Flux on the `kustomize.toolkit.fluxcd.io/name` or
`helm.toolkit.fluxcd.io/name` label; otherwise `unknown`.  Fields the spec
leaves unspecified for a family are `none`. -/
def detect_ownership (r : Resource) : OwnershipInfo :=
  let md := match dGet r.body "metadata" (.map []) with
    | .map m => m
    | _ => []
  let labels := match dGet md "labels" (.map []) with
    | .map m => m
    | _ => []
  let annotations := match dGet md "annotations" (.map []) with
    | .map m => m
    | _ => []
  if (match dGetOpt labels "app.kubernetes.io/managed-by" with
      | some (.str s) => s == "Helm"
      | _ => false) ||
     hasKey annotations "meta.helm.sh/release-name" then
    { manager := "helm"
      release := getStrOpt annotations "meta.helm.sh/release-name"
      app := getStrOpt labels "app.kubernetes.io/name" }
  else if hasKey labels "app.kubernetes.io/instance" &&
      annotations.any (fun kv => "argocd.argoproj.io/".isPrefixOf kv.1) then
    { manager := "argocd", release := none
      app := getStrOpt labels "app.kubernetes.io/instance" }
  else if hasKey labels "kustomize.toolkit.fluxcd.io/name" ||
      hasKey labels "helm.toolkit.fluxcd.io/name" then
    { manager := "flux", release := none, app := none }
  else
    { manager := "unknown", release := none, app := none }

/-- The body of `check_crd_ownership` from `crd/ownership.py` after the
`detect_ownership` call, as a function of the detected `OwnershipInfo`
(so the theorems below can quantify over the detected manager, exactly as
the claims do). -/
def check_crd_ownership_of (crd_name : String) (ownership : OwnershipInfo)
    (expected_release : Option String) : Option String :=
  if ownership.manager == "unknown" then none
  else if ownership.manager != "helm" then
    some ("CRD '" ++ crd_name ++ "' is managed by " ++ ownership.manager ++
      (match ownership.app with
       | some a => if !a.isEmpty then " (app: " ++ a ++ ")" else ""
       | none => "") ++ ", not Helm")
  else
    match expected_release, ownership.release with
    | some er, some rl =>
      if !er.isEmpty && !rl.isEmpty && rl != er then
        some ("CRD '" ++ crd_name ++ "' is owned by Helm release '" ++ rl ++
          "', not the current release '" ++ er ++ "'")
      else none
    | _, _ => none

/-- `check_crd_ownership` from `crd/ownership.py`. -/
def check_crd_ownership (crd : Resource) (expected_release : Option String) :
    Option String :=
  check_crd_ownership_of crd.name (detect_ownership crd) expected_release

/-! ### `crd/extraction.py` -/

/-- `extract_crds_from_resources` from `crd/extraction.py`. -/
def extract_crds_from_resources (resources : List Resource) : List Resource :=
  resources.filter (fun r => r.kind == "CustomResourceDefinition")

/-- `extract_crds_from_chart_dir` from `crd/extraction.py`, over the chart's
`crds/` directory contents given as the read-and-parse outcome of each
`*.yaml` file (sorted) followed by each `*.yml` file (sorted); an absent
directory is the empty list.  An `.error` entry models a file on which
`read_text` raised `OSError` or `parse_multi_doc` raised `yaml.YAMLError`:
the `except` clause is a bare `continue`, so the file contributes nothing
and nothing is recorded anywhere. -/
def extract_crds_from_chart_dir
    (files : List (Except String (List Resource))) : List Resource :=
  files.foldl (fun acc f =>
    match f with
    | .error _ => acc
    | .ok parsed =>
      acc ++ parsed.filter (fun r => r.kind == "CustomResourceDefinition")) []

/-! ### `crd/differ.py`

The generic diff engine it calls (`strip_noise`, `normalize_body`,
`is_semantically_equal` from `helm_preview/diff/filters.py` /
`semantic.py`, and DeepDiff plus `_extract_changes` from
`helm_preview/diff/engine.py`) is not among the provided sources; it enters
as an explicit `DiffEngine` record, and every theorem about `diff_crds` and
the pipeline holds for any choice of it. -/

structure DiffEngine where
  strip_noise : List (String × Node) → List String → List (String × Node)
  normalize_body : List (String × Node) → List (String × Node)
  is_semantically_equal : List (String × Node) → List (String × Node) → Bool
  extract_changes : List (String × Node) → List (String × Node) → List FieldChange

/-- `CRD_NOISE_PATHS` from `crd/differ.py`. -/
def CRD_NOISE_PATHS : List String :=
  ["status",
   "metadata.creationTimestamp",
   "metadata.resourceVersion",
   "metadata.uid",
   "metadata.generation",
   "metadata.managedFields",
   "metadata.annotations.meta\\.helm\\.sh/*",
   "metadata.annotations.kubectl\\.kubernetes\\.io/last-applied-configuration",
   "metadata.labels.helm\\.sh/chart"]

/-- `{r.name: r for r in rs}.get(n)`: Python dict comprehensions keep the
last binding of a duplicated key. -/
def lastWithName (rs : List Resource) (n : String) : Option Resource :=
  rs.foldl (fun acc r => if r.name == n then some r else acc) none

/-- `list(dict.fromkeys(l))`: first-seen order with duplicates dropped. -/
def dedupNames (l : List String) : List String :=
  l.foldl (fun acc x => if acc.contains x then acc else acc ++ [x]) []

/-- The loop body of `pair_crds` for one name of the merged key sequence. -/
def buildPair (installed proposed : List Resource) (n : String) : ResourcePair :=
  match lastWithName installed n, lastWithName proposed n with
  | none, newr => { old := none, new := newr, status := "added" }
  | some o, none => { old := some o, new := none, status := "removed" }
  | some o, some w =>
    if pyEq (.map o.body) (.map w.body) then
      { old := some o, new := some w, status := "unchanged" }
    else
      { old := some o, new := some w, status := "changed" }

/-- `pair_crds` from `crd/differ.py`. -/
def pair_crds (installed proposed : List Resource) : List ResourcePair :=
  (dedupNames (installed.map (fun r => r.name) ++
    proposed.map (fun r => r.name))).map (buildPair installed proposed)

/-- The loop body of `diff_crds` for one pair: `none` models `continue`.
The final wildcard arm corresponds to the source's `assert` that a changed
pair has both sides; pairs produced by `pair_crds` always do. -/
def diff_one (eng : DiffEngine) (pair : ResourcePair) :
    Option (ResourcePair × List FieldChange) :=
  if pair.status == "added" || pair.status == "removed" then some (pair, [])
  else if pair.status == "unchanged" then none
  else
    match pair.old, pair.new with
    | some o, some n =>
      let old_body := eng.normalize_body (eng.strip_noise o.body CRD_NOISE_PATHS)
      let new_body := eng.normalize_body (eng.strip_noise n.body CRD_NOISE_PATHS)
      if eng.is_semantically_equal old_body new_body then none
      else
        let changes := eng.extract_changes old_body new_body
        if changes.isEmpty then none else some (pair, changes)
    | _, _ => none

/-- `diff_crds` from `crd/differ.py`: the append-or-continue loop is a
`filterMap` of `diff_one`. -/
def diff_crds (eng : DiffEngine) (pairs : List ResourcePair) :
    List (ResourcePair × List FieldChange) :=
  pairs.filterMap (diff_one eng)

/-! ### `crd/detect_new.py` -/

/-- `detect_new_crds` from `crd/detect_new.py`.  Wildcard arms stand for
shapes (`spec` or its members not mappings/lists) on which the Python
raises. -/
def detect_new_crds (installed proposed : List Resource) : List NewCrdInfo :=
  let installed_names := installed.map (fun r => r.name)
  proposed.filterMap (fun r =>
    if installed_names.contains r.name then none
    else
      match dGet r.body "spec" (.map []) with
      | .map sp =>
        some { name := r.name
               group := dGet sp "group" (.str "")
               kind :=
                 match dGet sp "names" (.map []) with
                 | .map nm => dGet nm "kind" (.str "")
                 | _ => Node.null
               versions :=
                 match dGet sp "versions" (.list []) with
                 | .list vs =>
                   vs.map (fun v =>
                     match v with
                     | .map vm => dGet vm "name" (.str "")
                     | _ => Node.null)
                 | _ => [] }
      | _ => none)

/-! ### `crd/discovery.py` and the subprocess boundary

The subprocess runner (`helm_preview/core/runner.py`) is not among the
provided sources; per the spec every external call yields UTF-8 text or a
single error kind `RunError` bearing a message.  An environment record
carries each call's outcome, already parsed into resources/trees (the
parser `helm_preview/parser/manifest.py` is likewise outside the provided
sources; spec section 4.1 fixes its contract). -/

abbrev RunError := String

structure PipelineEnv where
  kubectl_get_crds : Except RunError (List Resource)
  fetch_crs : String → Except RunError (List Node)

/-- `discover_cluster_crds` from `crd/discovery.py`: `kubectl get crds -o
yaml`, with any `RunError` (and any unparseable output) absorbed into an
empty installed set.  The environment supplies the parsed CRD list of the
success case. -/
def discover_cluster_crds (E : PipelineEnv) : List Resource :=
  match E.kubectl_get_crds with
  | .error _ => []
  | .ok rs => rs

/-- `fetch_custom_resources` from `crd/discovery.py`:
`kubectl get <plural>.<group> -A -o yaml`, with any `RunError` absorbed into
an empty CR list. -/
def fetch_custom_resources (E : PipelineEnv) (resource_name : String) :
    List Node :=
  match E.fetch_crs resource_name with
  | .error _ => []
  | .ok items => items

/-! ### `crd/pipeline.py` -/

/-- The first element of `versions` whose `storage` is truthy, yielding its
`name` (the storage-version loop of `_validate_live_crs`).  Non-mapping
entries raise in Python and are skipped here (outside every theorem). -/
def findStorageName : List Node → Option Node
  | [] => none
  | (.map vm) :: rest =>
    if truthy (dGet vm "storage" Node.null) then some (dGet vm "name" Node.null)
    else findStorageName rest
  | _ :: rest => findStorageName rest

/-- `_validate_live_crs` from `crd/pipeline.py`: fetch live CRs and validate
them against the proposed storage-version schema; every early `return`
leaves the detail's error list empty. -/
def _validate_live_crs (rmatch : String → String → Option Bool)
    (E : PipelineEnv) (new_crd : Resource) : List String :=
  match dGet new_crd.body "spec" (.map []) with
  | .map sm =>
    match dGet sm "names" (.map []) with
    | .map nm =>
      let plural := dGet nm "plural" (.str "")
      let group := dGet sm "group" (.str "")
      if !truthy plural || !truthy group then []
      else
        let crs := fetch_custom_resources E (pyStr plural ++ "." ++ pyStr group)
        if crs.isEmpty then []
        else
          match dGet sm "versions" (.list []) with
          | .list vs =>
            match findStorageName vs with
            | some sv =>
              if !truthy sv then []
              else
                match find_schema_for_version new_crd.body sv with
                | some schema =>
                  if !truthy schema then []
                  else validate_crs_against_schema rmatch crs schema
                | none => []
            | none => []
          | _ => []
    | _ => []
  | _ => []

/-- The warning `run_crd_pipeline` appends when the installed CRD set comes
back empty. -/
def discoveryWarning : String :=
  "Could not retrieve installed CRDs from cluster " ++
  "(permission denied or cluster unreachable). " ++
  "Comparing against empty set."

/-- Step 1 of `run_crd_pipeline`: proposed CRDs from the rendered upgrade
plus the chart's `crds/` directory, merged by name with the rendered set
taking precedence (`chart_files = none` models a falsy `chart_path`). -/
def crd_proposed (upgrade_resources : List Resource)
    (chart_files : Option (List (Except String (List Resource)))) :
    List Resource :=
  let proposed := extract_crds_from_resources upgrade_resources
  match chart_files with
  | none => proposed
  | some files =>
    let chart_crds := extract_crds_from_chart_dir files
    let existing_names := proposed.map (fun r => r.name)
    proposed ++ chart_crds.filter (fun c => !existing_names.contains c.name)

/-- The installed CRDs restricted to the proposed names
(`installed_relevant` in `run_crd_pipeline`). -/
def crd_installed_relevant (E : PipelineEnv)
    (upgrade_resources : List Resource)
    (chart_files : Option (List (Except String (List Resource)))) :
    List Resource :=
  let proposed_names :=
    (crd_proposed upgrade_resources chart_files).map (fun r => r.name)
  (discover_cluster_crds E).filter (fun r => proposed_names.contains r.name)

/-- The pair list `run_crd_pipeline` diffs. -/
def crd_pairs (E : PipelineEnv) (upgrade_resources : List Resource)
    (chart_files : Option (List (Except String (List Resource)))) :
    List ResourcePair :=
  pair_crds (crd_installed_relevant E upgrade_resources chart_files)
    (crd_proposed upgrade_resources chart_files)

/-- `(pair.new or pair.old).name` in `run_crd_pipeline` — the name of the
CRD a pair concerns (both sides absent never occurs for pairs produced by
`pair_crds`). -/
def pairName (pair : ResourcePair) : String :=
  match pair.new with
  | some r => r.name
  | none =>
    match pair.old with
    | some r => r.name
    | none => ""

/-- Steps 5/7/8/9 of `run_crd_pipeline` for one diffed pair: the
`CrdChangeDetail` it appends to the report. -/
def mk_crd_detail (rmatch : String → String → Option Bool)
    (E : PipelineEnv) (release_name : Option String)
    (pc : ResourcePair × List FieldChange) : CrdChangeDetail :=
  let pair := pc.1
  let changes := pc.2
  { name := pairName pair
    status := pair.status
    changes := changes
    risk_annotations :=
      if !changes.isEmpty then classify_crd_changes changes else []
    ownership_conflict :=
      match pair.old with
      | some o =>
        match check_crd_ownership o release_name with
        | some c => if !c.isEmpty then some c else none
        | none => none
      | none => none
    schema_validation_errors :=
      match pair.new with
      | some n =>
        if pair.status == "changed" then _validate_live_crs rmatch E n else []
      | none => []
    stored_version_warnings :=
      match pair.old, pair.new with
      | some o, some n =>
        if pair.status == "changed" then check_stored_version_safety o n
        else []
      | _, _ => [] }

/-- `run_crd_pipeline` from `crd/pipeline.py`. -/
def run_crd_pipeline (eng : DiffEngine)
    (rmatch : String → String → Option Bool) (E : PipelineEnv)
    (upgrade_resources : List Resource)
    (chart_files : Option (List (Except String (List Resource))))
    (policy_mode : CrdPolicyMode) (release_name : Option String) : CrdReport :=
  let proposed := crd_proposed upgrade_resources chart_files
  if proposed.isEmpty then
    let empty : CrdReport :=
      { crds := [], new_crds := [], policy_result := none, warnings := [] }
    { empty with policy_result := some (evaluate_policy empty policy_mode) }
  else
    let installed := discover_cluster_crds E
    let warnings := if installed.isEmpty then [discoveryWarning] else []
    let installed_relevant :=
      crd_installed_relevant E upgrade_resources chart_files
    let pairs := pair_crds installed_relevant proposed
    let diff_results := diff_crds eng pairs
    let crds := diff_results.map (mk_crd_detail rmatch E release_name)
    let new_crds := detect_new_crds installed_relevant proposed
    let report0 : CrdReport :=
      { crds := crds, new_crds := new_crds, policy_result := none
        warnings := warnings }
    { report0 with policy_result := some (evaluate_policy report0 policy_mode) }

/-! ### `cli.py`

Only the exit code of the `diff` command is modelled: the rendering,
`diff_all`, risk and ownership stages of the command influence the output
text only.  `get_manifest`/`dry_run_upgrade` (with their `parse_multi_doc`
parse, whose contract spec section 4.1 fixes; the parser is outside the
provided sources) and the per-resource `server_side_dry_run` enter through
the environment.  A `RunError` escaping the `try` block prints to stderr
and exits 1; the policy check inside it raises `SystemExit(1)`, which
`except RunError` does not catch. -/

structure CliEnv extends PipelineEnv where
  get_manifest : Except RunError (List Resource)
  dry_run_upgrade : Except RunError (List Resource)
  server_side_dry_run : Resource → Except RunError (List Resource)
  chart_files : List (Except String (List Resource))

structure CliOpts where
  release : String
  chart : String
  server_side : Bool
  check_crds : Bool
  crd_policy : CrdPolicyMode

/-- `_apply_server_side` from `cli.py`: a per-resource `RunError`, or an
empty parse of the mutated output, falls back to the client-rendered
resource. -/
def _apply_server_side (E : CliEnv) (resources : List Resource) :
    List Resource :=
  resources.map (fun res =>
    match E.server_side_dry_run res with
    | .error _ => res
    | .ok mutated =>
      match mutated with
      | m :: _ => m
      | [] => res)

/-- `crd_report and crd_report.policy_result and
crd_report.policy_result.blocked` for a report that is present. -/
def blockedOf (r : CrdReport) : Bool :=
  match r.policy_result with
  | some pr => pr.blocked
  | none => false

/-- The exit code of the `diff` click command in `cli.py`. -/
def diff_command (eng : DiffEngine)
    (rmatch : String → String → Option Bool) (E : CliEnv) (o : CliOpts) :
    Int :=
  match E.get_manifest with
  | .error _ => 1
  | .ok _live =>
    match E.dry_run_upgrade with
    | .error _ => 1
    | .ok upgrade0 =>
      let upgrade_resources :=
        if o.server_side then _apply_server_side E upgrade0 else upgrade0
      let crd_report : Option CrdReport :=
        if o.check_crds then
          some (run_crd_pipeline eng rmatch E.toPipelineEnv upgrade_resources
            (if !o.chart.isEmpty then some E.chart_files else none)
            o.crd_policy (some o.release))
        else none
      match crd_report with
      | some r => if blockedOf r then 1 else 0
      | none => 0

/-! ### Concrete instances used by witnesses and counterexamples -/

/-- The diff-engine instantiation used by the concrete counterexamples
and witnesses (the theorems about the pipeline hold for every engine). -/
def engTest : DiffEngine :=
  { strip_noise := fun b _ => b
    normalize_body := fun b => b
    is_semantically_equal := fun _ _ => false
    extract_changes := fun _ _ => [] }

/-- Like `engTest` but with an equivalence that identifies everything,
exercising the semantic-equality drop of `diff_crds`. -/
def engAllEqual : DiffEngine :=
  { strip_noise := fun b _ => b
    normalize_body := fun b => b
    is_semantically_equal := fun _ _ => true
    extract_changes := fun _ _ => [] }

/-- Pattern oracle for concrete runs that never reach a pattern check. -/
def rmTrue : String → String → Option Bool := fun _ _ => some true

/-- A proposed CRD as parsed from a chart file. -/
def crdProposedA : Resource :=
  { api_version := "apiextensions.k8s.io/v1"
    kind := "CustomResourceDefinition"
    «namespace» := ""
    name := "widgets.example.com"
    body := [("spec", .map [("group", .str "example.com")])]
    raw := "" }

/-- The installed copy of the same CRD with a differing body. -/
def crdInstalledA : Resource :=
  { api_version := "apiextensions.k8s.io/v1"
    kind := "CustomResourceDefinition"
    «namespace» := ""
    name := "widgets.example.com"
    body := [("spec", .map [("group", .str "example.com"),
      ("scope", .str "Namespaced")])]
    raw := "" }

/-- A pipeline environment whose cluster has `crdInstalledA` and whose CR
fetches fail. -/
def envC8 : PipelineEnv :=
  { kubectl_get_crds := .ok [crdInstalledA]
    fetch_crs := fun _ => .error "connection refused" }

/-- The proposed schema of spec section 8, scenario 6: an object whose
`spec` property is an object requiring `color`. -/
def schemaSpecColor : Node :=
  .map [("type", .str "object"),
        ("properties", .map [("spec",
          .map [("type", .str "object"),
                ("required", .list [.str "color"]),
                ("properties", .map [("color",
                  .map [("type", .str "string")])])])])]

/-- A live CR named `my-widget` in namespace `default` lacking
`spec.color`. -/
def crDefaultNamespace : Node :=
  .map [("metadata", .map [("name", .str "my-widget"),
                           ("namespace", .str "default")]),
        ("spec", .map [])]

/-- The same CR without a namespace (cluster-scoped). -/
def crNoNamespace : Node :=
  .map [("metadata", .map [("name", .str "my-widget")]),
        ("spec", .map [])]

/-- A detail whose `max_risk` is DANGER. -/
def dangerDetail : CrdChangeDetail :=
  { name := "widgets.example.com"
    status := "changed"
    changes := []
    risk_annotations :=
      [{ level := .DANGER, rule := "crd_version_removed"
         message := "CRD version removed", path := "spec.versions[0]" }]
    stored_version_warnings := []
    schema_validation_errors := []
    ownership_conflict := none }

/-- A report containing one DANGER-level CRD. -/
def reportDanger : CrdReport :=
  { crds := [dangerDetail], new_crds := [], policy_result := none
    warnings := [] }

/-- A concrete extracted change: the scope of `widgets.example.com`
changed. -/
def fcC10 : FieldChange :=
  { path := "spec.scope", old_value := .str "Namespaced"
    new_value := .str "Cluster", change_type := "value_changed" }

/-- Like `engTest` but extracting the one concrete change `fcC10`, so that
a changed pair survives the diff loop. -/
def engC10 : DiffEngine :=
  { strip_noise := fun b _ => b
    normalize_body := fun b => b
    is_semantically_equal := fun _ _ => false
    extract_changes := fun _ _ => [fcC10] }

/-- The pair `pair_crds` builds for `widgets.example.com` from the concrete
installed/proposed CRDs (a `changed` pair: the bodies differ). -/
def pairC10 : ResourcePair :=
  buildPair [crdInstalledA] [crdProposedA] "widgets.example.com"

/-- The detail the pipeline appends for `pairC10` under `engC10`. -/
def detailC10 : CrdChangeDetail :=
  mk_crd_detail rmTrue envC8 (some "rel") (pairC10, [fcC10])

/-- A CLI environment whose primary path succeeds while every degradable
call (CRD discovery, CR fetch, per-resource server-side dry-run) fails. -/
def cliEnvC2 : CliEnv :=
  { kubectl_get_crds := .error "forbidden"
    fetch_crs := fun _ => .error "forbidden"
    get_manifest := .ok []
    dry_run_upgrade := .ok [crdProposedA]
    server_side_dry_run := fun _ => .error "conflict"
    chart_files := [] }

/-- Options enabling every degradable feature under the `fail` policy. -/
def cliOptsC2 : CliOpts :=
  { release := "rel", chart := "", server_side := true, check_crds := true
    crd_policy := .FAIL }

/-! ## Theorems -/

theorem max_risk_matches_danger_iff (c : CrdChangeDetail) :
    ((c.max_risk matches RiskLevel.DANGER) = true) ↔ c.max_risk = .DANGER := by
  cases h : c.max_risk <;> simp [h]

/-- C1: for every `CrdReport` and every policy mode, `evaluate_policy`
returns `blocked = false` for `ignore` and `warn`; for `fail` it returns
`blocked = true` with `exit_code = 1` exactly when some `CrdChangeDetail`
of the report has `max_risk = DANGER`, and otherwise `blocked = false` with
`exit_code = 0`. -/
theorem evaluate_policy_spec (r : CrdReport) (mode : CrdPolicyMode) :
    ((mode = .IGNORE ∨ mode = .WARN) →
      (evaluate_policy r mode).blocked = false) ∧
    (mode = .FAIL →
      (((evaluate_policy r mode).blocked = true ∧
          (evaluate_policy r mode).exit_code = 1) ↔
        ∃ c ∈ r.crds, c.max_risk = .DANGER) ∧
      ((¬ ∃ c ∈ r.crds, c.max_risk = .DANGER) →
        (evaluate_policy r mode).blocked = false ∧
        (evaluate_policy r mode).exit_code = 0)) := by
  constructor
  · rintro (rfl | rfl) <;> simp [evaluate_policy]
  · rintro rfl
    have hkey :
        (r.crds.filter (fun c => c.max_risk matches RiskLevel.DANGER)) ≠ [] ↔
        ∃ c ∈ r.crds, c.max_risk = .DANGER := by
      constructor
      · intro hne
        obtain ⟨c, hc⟩ := List.exists_mem_of_ne_nil _ hne
        obtain ⟨hcm, hcp⟩ := List.mem_filter.mp hc
        exact ⟨c, hcm, (max_risk_matches_danger_iff c).mp hcp⟩
      · rintro ⟨c, hcm, hcd⟩ hnil
        have := List.filter_eq_nil.mp hnil c hcm
        exact this ((max_risk_matches_danger_iff c).mpr hcd)
    by_cases hd : ∃ c ∈ r.crds, c.max_risk = .DANGER
    · have hne :
          (r.crds.filter (fun c => c.max_risk matches RiskLevel.DANGER)).isEmpty
            = false :=
        List.isEmpty_eq_false.mpr (hkey.mpr hd)
      refine ⟨⟨fun _ => hd, fun _ => ?_⟩, fun hcontra => absurd hd hcontra⟩
      simp [evaluate_policy, hne]
    · have hemp :
          (r.crds.filter (fun c => c.max_risk matches RiskLevel.DANGER)).isEmpty
            = true := by
        cases hb : (r.crds.filter
            (fun c => c.max_risk matches RiskLevel.DANGER)).isEmpty
        · exact absurd (hkey.mp (List.isEmpty_eq_false.mp hb)) hd
        · rfl
      refine ⟨⟨fun hcon => absurd (?_) hd, fun h => absurd h hd⟩, fun _ => ?_⟩
      · exfalso
        have hb := hcon.1
        revert hb
        simp [evaluate_policy, hemp]
        split <;> simp
      · simp only [evaluate_policy, hemp]
        split <;> simp <;> split <;> simp

/-- Witness for C1: a report with one DANGER-level CRD blocks under `fail`
with exit code 1 and never blocks under `warn`. -/
theorem evaluate_policy_spec_witness :
    (evaluate_policy reportDanger .FAIL).blocked = true ∧
    (evaluate_policy reportDanger .FAIL).exit_code = 1 ∧
    (evaluate_policy reportDanger .WARN).blocked = false := by
  have hfail := ((evaluate_policy_spec reportDanger .FAIL).2 rfl).1.mpr
    ⟨dangerDetail, List.mem_singleton.mpr rfl, rfl⟩
  exact ⟨hfail.1, hfail.2, (evaluate_policy_spec reportDanger .WARN).1
    (Or.inr rfl)⟩

/-- C3: `classify_crd_changes` is total and order-preserving — it is
exactly the map of `_classify_single` over the inputs, hence one
`RiskAnnotation` per `FieldChange` in input order — and a change matching
none of the seventeen specific rules receives the catch-all WARNING
annotation `crd_unknown_change`. -/
theorem classify_crd_changes_total :
    (∀ changes : List FieldChange,
      classify_crd_changes changes = changes.map _classify_single) ∧
    (∀ changes : List FieldChange,
      (classify_crd_changes changes).length = changes.length) ∧
    (∀ fc : FieldChange, matchesNoSpecificRule fc = true →
      _classify_single fc =
        _annotation .WARNING "crd_unknown_change"
          ("Unknown CRD change at '" ++ fc.path ++ "'") fc.path) := by
  refine ⟨fun _ => rfl, fun changes => by simp [classify_crd_changes],
    fun fc h => ?_⟩
  unfold matchesNoSpecificRule at h
  simp only [Bool.and_eq_true, Bool.not_eq_true'] at h
  obtain ⟨⟨⟨⟨⟨⟨⟨⟨⟨⟨⟨⟨⟨⟨⟨h1, h2⟩, h3⟩, h4⟩, h5⟩, h6⟩, h7⟩, h8⟩, h9⟩, h10⟩,
    h11⟩, h12⟩, h13⟩, h14⟩, h15⟩, h16⟩ := h
  unfold _classify_single
  by_cases hs : reSearch reSchemaRequired fc.path = true
  · have hor : (fc.change_type == "item_removed" ||
        fc.change_type == "value_changed") = false := by
      rw [hs] at h16; simpa using h16
    obtain ⟨hr1, hr2⟩ := Bool.or_eq_false_iff.mp hor
    have hadd : (fc.change_type == "item_added") = false := by
      rw [hs] at h6; simpa using h6
    simp [h1, h2, h3, h4, h5, h7, h8, h9, h10, h11, h12, h13, h14, h15,
      hs, hr1, hr2, hadd]
  · have hs' : reSearch reSchemaRequired fc.path = false :=
      Bool.eq_false_iff.mpr hs
    simp [h1, h2, h3, h4, h5, h7, h8, h9, h10, h11, h12, h13, h14, h15,
      hs']

/-- Witness for C3 at a concrete change that matches no specific rule. -/
theorem classify_crd_changes_total_witness :
    matchesNoSpecificRule ⟨"foo", .null, .null, "type_changed"⟩ = true ∧
    _classify_single ⟨"foo", .null, .null, "type_changed"⟩ =
      _annotation .WARNING "crd_unknown_change" "Unknown CRD change at 'foo'"
        "foo" :=
  ⟨by decide, by
    have h := classify_crd_changes_total.2.2
      ⟨"foo", .null, .null, "type_changed"⟩ (by decide)
    simpa using h⟩

/-- C4: for CRD-shaped resources (mapping `status`, list-of-strings
`storedVersions`, mapping `spec`, list-of-mappings `versions` — the shapes
on which the Python source runs without raising), the stored-version check
returns exactly one warning per stored version absent from the proposed
version names, is non-empty iff such a stored version exists, and is empty
when `storedVersions` is absent or empty (absence makes `dGet` return the
default empty list, so it is the `svs = []` case). -/
theorem check_stored_version_safety_spec
    (old_crd new_crd : Resource) (st sp : List (String × Node))
    (svs vs : List Node)
    (hst : dGet old_crd.body "status" (.map []) = .map st)
    (hsv : dGet st "storedVersions" (.list []) = .list svs)
    (hsp : dGet new_crd.body "spec" (.map []) = .map sp)
    (hvs : dGet sp "versions" (.list []) = .list vs)
    (hvshape : ∀ v ∈ vs, ∃ vm, v = Node.map vm)
    (hsvshape : ∀ sv ∈ svs, ∃ s, sv = Node.str s) :
    check_stored_version_safety old_crd new_crd =
      svs.filterMap (fun sv =>
        if pyMem sv (newVersionNames vs) then none
        else some (storedVersionWarning sv)) ∧
    (check_stored_version_safety old_crd new_crd ≠ [] ↔
      ∃ sv ∈ svs, pyMem sv (newVersionNames vs) = false) ∧
    (svs = [] → check_stored_version_safety old_crd new_crd = []) := by
  have heq : check_stored_version_safety old_crd new_crd =
      svs.filterMap (fun sv =>
        if pyMem sv (newVersionNames vs) then none
        else some (storedVersionWarning sv)) := by
    unfold check_stored_version_safety
    rw [hst]
    simp only [hsv]
    by_cases hnil : svs = []
    · subst hnil; simp [truthy]
    · have htr : truthy (.list svs) = true := by
        simp [truthy, List.isEmpty_eq_false.mpr hnil]
      simp [htr, hsp, hvs]
  refine ⟨heq, ?_, fun h => by rw [heq, h]; rfl⟩
  rw [heq]
  constructor
  · intro hne
    by_contra hcon
    push_neg at hcon
    apply hne
    apply List.filterMap_eq_nil.mpr
    intro sv hsv'
    have hmem : pyMem sv (newVersionNames vs) = true := by
      cases hb : pyMem sv (newVersionNames vs)
      · exact absurd hb (hcon sv hsv')
      · rfl
    simp [hmem]
  · rintro ⟨sv, hmem, hfalse⟩ hnil
    have := List.filterMap_eq_nil.mp hnil sv hmem
    rw [hfalse] at this
    simp at this

/-- Witness for C4: installed `storedVersions = [v1, v2]`, proposed
versions `[v2, v3]` — exactly the `v1` warning. -/
theorem check_stored_version_safety_spec_witness :
    check_stored_version_safety
      ⟨"apiextensions.k8s.io/v1", "CustomResourceDefinition", "", "w",
        [("status", .map [("storedVersions", .list [.str "v1", .str "v2"])])],
        ""⟩
      ⟨"apiextensions.k8s.io/v1", "CustomResourceDefinition", "", "w",
        [("spec", .map [("versions",
          .list [.map [("name", .str "v2")], .map [("name", .str "v3")]])])],
        ""⟩ = [storedVersionWarning (.str "v1")] := by
  have h := check_stored_version_safety_spec
    ⟨"apiextensions.k8s.io/v1", "CustomResourceDefinition", "", "w",
      [("status", .map [("storedVersions", .list [.str "v1", .str "v2"])])],
      ""⟩
    ⟨"apiextensions.k8s.io/v1", "CustomResourceDefinition", "", "w",
      [("spec", .map [("versions",
        .list [.map [("name", .str "v2")], .map [("name", .str "v3")]])])],
      ""⟩
    [("storedVersions", .list [.str "v1", .str "v2"])]
    [("versions", .list [.map [("name", .str "v2")], .map [("name", .str "v3")]])]
    [.str "v1", .str "v2"]
    [.map [("name", .str "v2")], .map [("name", .str "v3")]]
    rfl rfl rfl rfl
    (by
      intro v hv
      simp only [List.mem_cons, List.not_mem_nil, or_false] at hv
      rcases hv with rfl | rfl
      · exact ⟨_, rfl⟩
      · exact ⟨_, rfl⟩)
    (by
      intro sv hv
      simp only [List.mem_cons, List.not_mem_nil, or_false] at hv
      rcases hv with rfl | rfl
      · exact ⟨_, rfl⟩
      · exact ⟨_, rfl⟩)
  rw [h.1]
  rfl

/-- C7: in `_check_type`, a null value passes every declared schema type,
and a boolean fails the `integer` check even though Python's `bool` is a
subclass of `int`. -/
theorem check_type_nullable_and_bool_not_integer :
    (∀ t : Node, _check_type Node.null t = true) ∧
    (∀ b : Bool, _check_type (Node.bool b) (.str "integer") = false) :=
  ⟨fun _ => rfl, fun _ => rfl⟩

/-! Regex-matcher lemmas for C5. -/

theorem mkSeq_eps (r : RE) : mkSeq .eps r = r := by cases r <;> rfl

theorem mkSeq_emp (r : RE) : mkSeq .emp r = .emp := by cases r <;> rfl

theorem mkAlt_emp_left (r : RE) : mkAlt .emp r = r := by cases r <;> rfl

theorem mkAlt_emp_right (r : RE) : mkAlt r .emp = r := by cases r <;> rfl

theorem matchesPref_emp (l : List Char) : matchesPref .emp l = false := by
  induction l with
  | nil => rfl
  | cons c cs ih => simp [matchesPref, nullable, deriv, ih]

theorem deriv_chrSeq_self (c : Char) (r : RE) :
    deriv (.seq (.chr c) r) c = r := by
  simp [deriv, nullable, mkSeq_eps, mkAlt_emp_right]

theorem deriv_chrSeq_ne {a c : Char} (r : RE) (h : a ≠ c) :
    deriv (.seq (.chr a) r) c = .emp := by
  simp [deriv, nullable, h, mkSeq_emp, mkAlt_emp_right]

theorem accepts_cat (cs : List Char) (k : RE) (l : List Char) :
    accepts (cs.foldr (fun c r => .seq (.chr c) r) k) (cs ++ l) =
      accepts k l := by
  induction cs with
  | nil => rfl
  | cons c cs ih =>
    show accepts (.seq (.chr c) (cs.foldr (fun c r => .seq (.chr c) r) k))
      (c :: (cs ++ l)) = accepts k l
    rw [accepts, deriv_chrSeq_self]
    exact ih

theorem accepts_catRE (s : String) (k : RE) (l : List Char) :
    accepts (catRE s k) (s.data ++ l) = accepts k l :=
  accepts_cat s.data k l

theorem mustHave_nullable {p : Char → Bool} :
    ∀ {r : RE}, mustHave p r = true → nullable r = false := by
  intro r
  induction r with
  | emp => intro _; rfl
  | eps => intro h; exact absurd h (by simp [mustHave])
  | chr c => intro _; rfl
  | cls q => intro h; exact absurd h (by simp [mustHave])
  | seq a b iha ihb =>
    intro h
    rcases Bool.or_eq_true_iff.mp h with ha | hb
    · simp [nullable, iha ha]
    · simp [nullable, ihb hb]
  | alt a b iha ihb =>
    intro h
    obtain ⟨ha, hb⟩ := Bool.and_eq_true_iff.mp h
    simp [nullable, iha ha, ihb hb]
  | star r ihr => intro h; exact absurd h (by simp [mustHave])

theorem mustHave_mkSeq {p : Char → Bool} {a b : RE}
    (h : mustHave p a = true ∨ mustHave p b = true) :
    mustHave p (mkSeq a b) = true := by
  unfold mkSeq
  split
  · rfl
  · rfl
  · rcases h with ha | hb
    · exact absurd ha (by simp [mustHave])
    · exact hb
  · rcases h with ha | hb
    · exact ha
    · exact absurd hb (by simp [mustHave])
  · simp only [mustHave, Bool.or_eq_true]
    exact h

theorem mustHave_mkAlt {p : Char → Bool} {a b : RE}
    (ha : mustHave p a = true) (hb : mustHave p b = true) :
    mustHave p (mkAlt a b) = true := by
  unfold mkAlt
  split
  · exact hb
  · exact ha
  · simp only [mustHave, Bool.and_eq_true]
    exact ⟨ha, hb⟩

theorem mustHave_deriv {p : Char → Bool} {c : Char} (hpc : p c = false) :
    ∀ {r : RE}, mustHave p r = true → mustHave p (deriv r c) = true := by
  intro r
  induction r with
  | emp => intro _; rfl
  | eps => intro h; exact absurd h (by simp [mustHave])
  | chr a =>
    intro h
    have ha : p a = true := h
    have hne : a ≠ c := fun he => by rw [he, hpc] at ha; cases ha
    simp [deriv, hne, mustHave]
  | cls q => intro h; exact absurd h (by simp [mustHave])
  | seq a b iha ihb =>
    intro h
    rcases Bool.or_eq_true_iff.mp h with ha | hb
    · refine mustHave_mkAlt (mustHave_mkSeq (Or.inl (iha ha))) ?_
      rw [mustHave_nullable ha]
      rfl
    · apply mustHave_mkAlt (mustHave_mkSeq (Or.inr hb))
      by_cases hna : nullable a
      · simp only [hna, if_true]
        exact ihb hb
      · simp only [hna, if_false]
        rfl
  | alt a b iha ihb =>
    intro h
    obtain ⟨ha, hb⟩ := Bool.and_eq_true_iff.mp h
    simp only [deriv]
    exact mustHave_mkAlt (iha ha) (ihb hb)
  | star r ihr => intro h; exact absurd h (by simp [mustHave])

theorem mustHave_accepts {p : Char → Bool} :
    ∀ (l : List Char) (r : RE), accepts r l = true → mustHave p r = true →
      ∃ c ∈ l, p c = true := by
  intro l
  induction l with
  | nil =>
    intro r hacc hmh
    rw [accepts, mustHave_nullable hmh] at hacc
    cases hacc
  | cons c cs ih =>
    intro r hacc hmh
    by_cases hpc : p c = true
    · exact ⟨c, List.mem_cons_self c cs, hpc⟩
    · have hpc' : p c = false := Bool.eq_false_iff.mpr hpc
      rw [accepts] at hacc
      obtain ⟨d, hd, hpd⟩ := ih _ hacc (mustHave_deriv hpc' hmh)
      exact ⟨d, List.mem_cons_of_mem c hd, hpd⟩

theorem mustHave_matchesPref {p : Char → Bool} :
    ∀ (l : List Char) (r : RE), matchesPref r l = true →
      mustHave p r = true → ∃ c ∈ l, p c = true := by
  intro l
  induction l with
  | nil =>
    intro r hacc hmh
    rw [matchesPref, mustHave_nullable hmh] at hacc
    cases hacc
  | cons c cs ih =>
    intro r hacc hmh
    rw [matchesPref, mustHave_nullable hmh, Bool.false_or] at hacc
    by_cases hpc : p c = true
    · exact ⟨c, List.mem_cons_self c cs, hpc⟩
    · have hpc' : p c = false := Bool.eq_false_iff.mpr hpc
      obtain ⟨d, hd, hpd⟩ := ih _ hacc (mustHave_deriv hpc' hmh)
      exact ⟨d, List.mem_cons_of_mem c hd, hpd⟩

theorem mustHave_search {p : Char → Bool} :
    ∀ (l : List Char) (r : RE), search r l = true → mustHave p r = true →
      ∃ c ∈ l, p c = true := by
  intro l
  induction l with
  | nil =>
    intro r hacc hmh
    rw [search, mustHave_nullable hmh] at hacc
    cases hacc
  | cons c cs ih =>
    intro r hacc hmh
    rw [search] at hacc
    rcases Bool.or_eq_true_iff.mp hacc with hm | hs
    · exact mustHave_matchesPref _ _ hm hmh
    · obtain ⟨d, hd, hpd⟩ := ih _ hs hmh
      exact ⟨d, List.mem_cons_of_mem c hd, hpd⟩

/-- The residual state of `reVersionEntry` after the literal and the first
digit: `\d*\]` as a derivative-stable regex. -/
def reVEtail : RE := .seq (.star digitC) (.seq (.chr ']') .eps)

theorem deriv_reVEtail_digit {c : Char} (hc : c.isDigit = true) :
    deriv reVEtail c = reVEtail := by
  have hne : ']' ≠ c := by
    intro he
    rw [←he] at hc
    cases hc
  simp [reVEtail, deriv, nullable, digitC, hc, mkSeq_eps, mkSeq_emp,
    mkAlt_emp_right, hne, mkSeq, mkAlt]

theorem accepts_reVEtail_digits :
    ∀ (ds : List Char), (∀ c ∈ ds, c.isDigit = true) →
      accepts reVEtail (ds ++ [']']) = true := by
  intro ds
  induction ds with
  | nil =>
    intro _
    show accepts (deriv reVEtail ']') [] = true
    rfl
  | cons d ds ih =>
    intro hd
    show accepts (deriv reVEtail d) (ds ++ [']']) = true
    rw [deriv_reVEtail_digit (hd d (List.mem_cons_self d ds))]
    exact ih (fun c hc => hd c (List.mem_cons_of_mem d hc))

theorem accepts_reVersionEntry (ds : List Char) (hne : ds ≠ [])
    (hdig : ∀ c ∈ ds, c.isDigit = true) :
    reFull reVersionEntry ("spec.versions[" ++ String.mk ds ++ "]") = true := by
  cases ds with
  | nil => exact absurd rfl hne
  | cons d ds =>
    have hdata : ("spec.versions[" ++ String.mk (d :: ds) ++ "]").data =
        "spec.versions[".data ++ ((d :: ds) ++ [']']) := by
      simp [String.data_append]
    rw [reFull, hdata, reVersionEntry, accepts_catRE]
    show accepts (.seq (plusRE digitC) (strE "]")) (d :: (ds ++ [']'])) = true
    rw [accepts]
    have hd1 : d.isDigit = true := hdig d (List.mem_cons_self d ds)
    have hstep : deriv (.seq (plusRE digitC) (strE "]")) d = reVEtail := by
      simp [plusRE, deriv, nullable, digitC, hd1, mkSeq_eps, mkSeq_emp,
        mkAlt_emp_right, strE, catRE, reVEtail, mkSeq, mkAlt]
    rw [hstep]
    exact accepts_reVEtail_digits ds
      (fun c hc => hdig c (List.mem_cons_of_mem d hc))

/-- No character of `spec.versions[<digits>]` satisfies `p` when `p`
rejects the literal's characters, the closing bracket and all digits. -/
theorem versionEntry_path_lacks (ds : List Char)
    (hdig : ∀ c ∈ ds, c.isDigit = true) (p : Char → Bool)
    (hlit : ∀ c ∈ ("spec.versions[" : String).data, p c = false)
    (hbr : p ']' = false)
    (hdigp : ∀ c, c.isDigit = true → p c = false) :
    ∀ c ∈ ("spec.versions[" ++ String.mk ds ++ "]").data, p c = false := by
  intro c hc
  have hdata : ("spec.versions[" ++ String.mk ds ++ "]").data =
      ("spec.versions[".data ++ ds) ++ [']'] := by
    simp [String.data_append]
  rw [hdata] at hc
  rcases List.mem_append.mp hc with hc1 | hc2
  · rcases List.mem_append.mp hc1 with ha | hb
    · exact hlit c ha
    · exact hdigp c (hdig c hb)
  · have hc' : c = ']' := by simpa using hc2
    rw [hc']
    exact hbr

/-- C5: every FieldChange whose path lies in the language of
`^spec\.versions\[\d+\]$` (the strings `spec.versions[<digits>]` with a
non-empty digit index) with change type `item_removed` is classified as
the DANGER rule `crd_version_removed` — rule 5 fires, and in particular
not `crd_property_removed` (rule 7). -/
theorem version_removed_precedence (fc : FieldChange) (ds : List Char)
    (hne : ds ≠ []) (hdig : ∀ c ∈ ds, c.isDigit = true)
    (hpath : fc.path = "spec.versions[" ++ String.mk ds ++ "]")
    (hct : fc.change_type = "item_removed") :
    _classify_single fc =
      _annotation .DANGER "crd_version_removed" "CRD version removed"
        fc.path ∧
    reFull reVersionEntry fc.path = true ∧
    (_classify_single fc).rule ≠ "crd_property_removed" := by
  have hfull : reFull reVersionEntry fc.path = true := by
    rw [hpath]; exact accepts_reVersionEntry ds hne hdig
  have hdigm : ∀ c : Char, c.isDigit = true → (c == 'm') = false := by
    intro c hcd
    cases hb2 : (c == 'm')
    · rfl
    · exfalso
      have hc' : c = 'm' := by simpa using hb2
      rw [hc'] at hcd
      exact absurd hcd (by decide)
  have hdigP : ∀ c : Char, c.isDigit = true → (c == 'P') = false := by
    intro c hcd
    cases hb2 : (c == 'P')
    · rfl
    · exfalso
      have hc' : c = 'P' := by simpa using hb2
      rw [hc'] at hcd
      exact absurd hcd (by decide)
  have hg1 : reMatch reMetadataChange fc.path = false := by
    cases hb : reMatch reMetadataChange fc.path
    · rfl
    · exfalso
      have hmh : mustHave (fun c => c == 'm') reMetadataChange = true := by
        decide
      obtain ⟨c, hcmem, hcp⟩ := mustHave_matchesPref _ _ hb hmh
      rw [hpath] at hcmem
      have hnone := versionEntry_path_lacks ds hdig (fun c => c == 'm')
        (by decide) (by decide) hdigm c hcmem
      have hfalse : (c == 'm') = false := by simpa using hnone
      rw [hfalse] at hcp
      cases hcp
  have hg2 : reSearch rePrinterColumns fc.path = false := by
    cases hb : reSearch rePrinterColumns fc.path
    · rfl
    · exfalso
      have hmh : mustHave (fun c => c == 'P') rePrinterColumns = true := by
        decide
      obtain ⟨c, hcmem, hcp⟩ := mustHave_search _ _ hb hmh
      rw [hpath] at hcmem
      have hnone := versionEntry_path_lacks ds hdig (fun c => c == 'P')
        (by decide) (by decide) hdigP c hcmem
      have hfalse : (c == 'P') = false := by simpa using hnone
      rw [hfalse] at hcp
      cases hcp
  have hcadd : (fc.change_type == "item_added") = false := by
    rw [hct]; decide
  have hcrem : (fc.change_type == "item_removed") = true := by
    rw [hct]; decide
  refine ⟨?_, hfull, ?_⟩
  · unfold _classify_single
    simp only [hg1, hg2, hfull, hcadd, hcrem, Bool.false_eq_true, if_false,
      Bool.and_false, Bool.and_true, Bool.false_and, Bool.true_and, if_true]
  · unfold _classify_single
    simp only [hg1, hg2, hfull, hcadd, hcrem, Bool.false_eq_true, if_false,
      Bool.and_false, Bool.and_true, Bool.false_and, Bool.true_and, if_true]
    simp [ _annotation]

/-- Witness for C5 at the concrete path `spec.versions[0]`. -/
theorem version_removed_precedence_witness :
    _classify_single ⟨"spec.versions[0]", .null, .null, "item_removed"⟩ =
      _annotation .DANGER "crd_version_removed" "CRD version removed"
        "spec.versions[0]" ∧
    reFull reVersionEntry "spec.versions[0]" = true := by
  have h := version_removed_precedence
    ⟨"spec.versions[0]", .null, .null, "item_removed"⟩ ['0']
    (by decide) (by decide) (by decide) rfl
  exact ⟨by simpa using h.1, by simpa using h.2.1⟩

/-! Error-shape lemmas for C6. -/

theorem mem_validateProps {rm : String → String → Option Bool}
    {vm : List (String × Node)} {path : String}
    {props : List (String × Node)} {e : String}
    (h : e ∈ _validateProps rm vm path props) :
    ∃ pname pschema, (pname, pschema) ∈ props ∧
      ∃ v' p', e ∈ _validate_object rm v' pschema p' := by
  induction props with
  | nil => simp [_validateProps] at h
  | cons hd tl ih =>
    obtain ⟨pname, pschema⟩ := hd
    rw [_validateProps] at h
    rcases List.mem_append.mp h with h1 | h2
    · by_cases hk : hasKey vm pname = true
      · rw [if_pos hk] at h1
        exact ⟨pname, pschema, List.mem_cons_self _ _, _, _, h1⟩
      · rw [if_neg hk] at h1
        simp at h1
    · obtain ⟨pn, ps, hmem, hrest⟩ := ih h2
      exact ⟨pn, ps, List.mem_cons_of_mem _ hmem, hrest⟩

theorem mem_validateUnknown {rm : String → String → Option Bool}
    {pm am : List (String × Node)} {path : String}
    {l : List (String × Node)} {e : String}
    (h : e ∈ _validateUnknown rm pm am path l) :
    ∃ v' p', e ∈ _validate_object rm v' (.map am) p' := by
  induction l with
  | nil => simp [_validateUnknown] at h
  | cons hd tl ih =>
    obtain ⟨k, v⟩ := hd
    rw [_validateUnknown] at h
    rcases List.mem_append.mp h with h1 | h2
    · by_cases hk : (!hasKey pm k) = true
      · rw [if_pos hk] at h1
        exact ⟨_, _, h1⟩
      · rw [if_neg hk] at h1
        simp at h1
    · exact ih h2

theorem mem_validateItems {rm : String → String → Option Bool}
    {ischema : Node} {path : String} {i : Nat} {l : List Node} {e : String}
    (h : e ∈ _validateItems rm ischema path i l) :
    ∃ v' p', e ∈ _validate_object rm v' ischema p' := by
  induction l generalizing i with
  | nil => simp [_validateItems] at h
  | cons item tl ih =>
    rw [_validateItems] at h
    rcases List.mem_append.mp h with h1 | h2
    · exact ⟨_, _, h1⟩
    · exact ih h2

theorem mem_enumErrs_shape {v : Node} {sm : List (String × Node)}
    {path e : String} (h : e ∈ _enumErrs v sm path) :
    ∃ p m, e = atErr p m := by
  unfold _enumErrs at h
  split at h
  · split at h
    · exact ⟨_, _, List.mem_singleton.mp h⟩
    · simp at h
  · simp at h

theorem mem_patternErrs_shape {rm : String → String → Option Bool} {v : Node}
    {sm : List (String × Node)} {path e : String}
    (h : e ∈ _patternErrs rm v sm path) : ∃ p m, e = atErr p m := by
  unfold _patternErrs at h
  split at h
  · split at h
    · split at h
      · exact ⟨_, _, List.mem_singleton.mp h⟩
      · simp at h
    · simp at h
  · simp at h

theorem mem_minErrs_shape {v : Node} {sm : List (String × Node)}
    {path e : String} (h : e ∈ _minErrs v sm path) :
    ∃ p m, e = atErr p m := by
  unfold _minErrs at h
  split at h
  · split at h
    · split at h
      · exact ⟨_, _, List.mem_singleton.mp h⟩
      · simp at h
    · simp at h
  · simp at h

theorem mem_maxErrs_shape {v : Node} {sm : List (String × Node)}
    {path e : String} (h : e ∈ _maxErrs v sm path) :
    ∃ p m, e = atErr p m := by
  unfold _maxErrs at h
  split at h
  · split at h
    · split at h
      · exact ⟨_, _, List.mem_singleton.mp h⟩
      · simp at h
    · simp at h
  · simp at h

theorem mem_requiredErrs_shape {sm vm : List (String × Node)}
    {path e : String} (h : e ∈ _requiredErrs sm vm path) :
    ∃ p m, e = atErr p m := by
  unfold _requiredErrs at h
  split at h
  · obtain ⟨req, _, hsome⟩ := List.mem_filterMap.mp h
    split at hsome
    · cases hsome
    · exact ⟨_, _, (Option.some.inj hsome).symm⟩
  · simp at h

theorem mem_unknownFieldErrs_shape {pm vm : List (String × Node)}
    {path e : String} (h : e ∈ _unknownFieldErrs pm vm path) :
    ∃ p m, e = atErr p m := by
  unfold _unknownFieldErrs at h
  obtain ⟨kv, _, hsome⟩ := List.mem_filterMap.mp h
  split at hsome
  · exact ⟨_, _, (Option.some.inj hsome).symm⟩
  · cases hsome

theorem mem_objErrs_cases {rm : String → String → Option Bool} {v : Node}
    {sm : List (String × Node)} {path e : String}
    (h : e ∈ _objErrs rm v sm path) :
    (∃ p m, e = atErr p m) ∨
    (∃ v' schema' path', sizeOf schema' < sizeOf (Node.map sm) ∧
      e ∈ _validate_object rm v' schema' path') := by
  unfold _objErrs at h
  split at h
  case _ vm =>
    split at h
    · split at h
      case _ pm hpm =>
        rcases List.mem_append.mp h with hra | hadd
        rcases List.mem_append.mp hra with hreq | hprops
        · exact Or.inl (mem_requiredErrs_shape hreq)
        · obtain ⟨pname, pschema, hmem, v', p', he'⟩ :=
            mem_validateProps hprops
          refine Or.inr ⟨v', pschema, p', ?_, he'⟩
          rcases dGet_cases hpm with hsome | hdef
          · have h1 := sizeOf_node_of_mem_map hmem
            have h2 := sizeOf_dGetOpt hsome
            omega
          · injection hdef with hpm'
            subst hpm'
            simp at hmem
        · unfold _additionalErrs at hadd
          split at hadd
          · exact Or.inl (mem_unknownFieldErrs_shape hadd)
          case _ am had =>
            obtain ⟨v', p', he'⟩ := mem_validateUnknown hadd
            exact Or.inr ⟨v', .map am, p', sizeOf_dGetOpt had, he'⟩
          case _ => simp at hadd
      case _ => simp at h
    · simp at h
  case _ => simp at h

theorem mem_arrErrs_cases {rm : String → String → Option Bool} {v : Node}
    {sm : List (String × Node)} {path e : String}
    (h : e ∈ _arrErrs rm v sm path) :
    (∃ p m, e = atErr p m) ∨
    (∃ v' schema' path', sizeOf schema' < sizeOf (Node.map sm) ∧
      e ∈ _validate_object rm v' schema' path') := by
  unfold _arrErrs at h
  split at h
  case _ items =>
    split at h
    · split at h
      case _ ischema hit =>
        obtain ⟨v', p', he'⟩ := mem_validateItems h
        exact Or.inr ⟨v', ischema, p', sizeOf_dGetOpt hit, he'⟩
      case _ => simp at h
    · simp at h
  case _ => simp at h

/-- One unfolding of `_validate_object`: an error is either emitted at this
level (and then carries the `At '<path>': ` shape) or comes from a
recursive call on a strictly smaller schema. -/
theorem mem_validate_object_cases
    (rm : String → String → Option Bool) (v schema : Node) (path : String)
    (e : String) (h : e ∈ _validate_object rm v schema path) :
    (∃ p m, e = atErr p m) ∨
    (∃ v' schema' path', sizeOf schema' < sizeOf schema ∧
      e ∈ _validate_object rm v' schema' path') := by
  cases schema with
  | null => simp [_validate_object] at h
  | bool b => simp [_validate_object] at h
  | int n => simp [_validate_object] at h
  | str s => simp [_validate_object] at h
  | list l => simp [_validate_object] at h
  | map sm =>
    rw [_validate_object] at h
    split at h
    · exact Or.inl ⟨path, _, List.mem_singleton.mp h⟩
    · rcases List.mem_append.mp h with h5 | harr
      rcases List.mem_append.mp h5 with h4 | hobj
      rcases List.mem_append.mp h4 with h3 | hmax
      rcases List.mem_append.mp h3 with h2 | hmin
      rcases List.mem_append.mp h2 with henum | hpat
      · exact Or.inl (mem_enumErrs_shape henum)
      · exact Or.inl (mem_patternErrs_shape hpat)
      · exact Or.inl (mem_minErrs_shape hmin)
      · exact Or.inl (mem_maxErrs_shape hmax)
      · exact mem_objErrs_cases hobj
      · exact mem_arrErrs_cases harr

/-- Every error string `_validate_object` produces has the
`At '<path>': <reason>` shape. -/
theorem validate_object_errors_shape
    (rm : String → String → Option Bool) (v schema : Node) (path : String)
    (e : String) (h : e ∈ _validate_object rm v schema path) :
    ∃ p m, e = atErr p m := by
  have H : ∀ n (schema : Node), sizeOf schema ≤ n →
      ∀ (v : Node) (path e : String),
      e ∈ _validate_object rm v schema path → ∃ p m, e = atErr p m := by
    intro n
    induction n using Nat.strong_induction_on with
    | _ n ih =>
      intro schema hsz v path e he
      rcases mem_validate_object_cases rm v schema path e he with hbase | hrec
      · exact hbase
      · obtain ⟨v', schema', path', hlt, he'⟩ := hrec
        exact ih (sizeOf schema') (by omega) schema' (Nat.le_refl _)
          v' path' e he'
  exact H (sizeOf schema) schema (Nat.le_refl _) v path e h

/-- C6 counterexample: the claim says every error is formatted
`"<namespace>/<name>: At '<path>': <reason>"`.  For a CR without a
namespace the source builds the prefix as the bare name
(`f"{namespace}/{name}" if namespace else name`), so the produced error
contains no slash at all and admits no such decomposition. -/
theorem validate_error_prefix_counterexample :
    validate_crs_against_schema rmTrue [crNoNamespace] schemaSpecColor =
      ["my-widget: At 'spec': missing required field 'color'"] ∧
    ¬ ∃ ns nm rest,
      ("my-widget: At 'spec': missing required field 'color'" : String) =
        ns ++ "/" ++ nm ++ ": At '" ++ rest := by
  constructor
  · simp [crNoNamespace, schemaSpecColor, rmTrue, validate_crs_against_schema,
      _validate_object, _objErrs, _additionalErrs, _arrErrs, _validateProps,
      _validateUnknown, _validateItems, _typeFails, _typeErrMsg, stypeOf,
      _enumErrs, _patternErrs, _minErrs, _maxErrs, _requiredErrs,
      _unknownFieldErrs, dGet, dGetOpt, hasKey, truthy, pyMem, pyEq,
      pyEqList, pyEqSub, atErr, crErrPrefix, pyStr, pyNum, _check_type]
    decide
  · rintro ⟨ns, nm, rest, hdec⟩
    have hmem : '/' ∈
        ("my-widget: At 'spec': missing required field 'color'" : String).data := by
      rw [hdec]
      simp only [String.data_append]
      refine List.mem_append.mpr (Or.inl ?_)
      refine List.mem_append.mpr (Or.inl ?_)
      refine List.mem_append.mpr (Or.inl ?_)
      refine List.mem_append.mpr (Or.inr ?_)
      simp
    revert hmem
    decide

/-- C6 (amended): the concrete scenario of the claim (schema requiring
`color` under the object property `spec`, live CR `default/my-widget`
lacking `spec.color`) yields exactly the claimed error string; in general
every error of `validate_crs_against_schema` is
`<prefix>: At '<path>': <reason>` where the prefix is
`<namespace>/<name>` for a CR with a non-empty namespace and `<name>`
alone otherwise (`crErrPrefix`); and every name in the `required[]` of an
object-typed schema node with no `==`-equal key in the mapping being
validated yields such an error. -/
theorem validate_crs_format_spec :
    (∀ rmatch : String → String → Option Bool,
      validate_crs_against_schema rmatch [crDefaultNamespace]
        schemaSpecColor =
        ["default/my-widget: At 'spec': missing required field 'color'"]) ∧
    (∀ (rmatch : String → String → Option Bool) (crs : List Node)
        (schema : Node) (e : String),
      e ∈ validate_crs_against_schema rmatch crs schema →
      ∃ cr ∈ crs, ∃ cm md, cr = Node.map cm ∧
        dGet cm "metadata" (.map []) = .map md ∧
        ∃ p m, e = crErrPrefix md ++ ": " ++ atErr p m) ∧
    (∀ (rmatch : String → String → Option Bool) (v : Node)
        (sm vm : List (String × Node)) (reqs : List Node) (req : Node)
        (path : String) (pm : List (String × Node)),
      dGetOpt sm "type" = some (.str "object") →
      v = .map vm →
      dGet sm "required" (.list []) = .list reqs →
      dGet sm "properties" (.map []) = .map pm →
      req ∈ reqs →
      vm.any (fun kv => pyEq req (.str kv.1)) = false →
      atErr path ("missing required field '" ++ pyStr req ++ "'") ∈
        _validate_object rmatch v (.map sm) path) := by
  refine ⟨fun rmatch => ?_, fun rmatch crs schema e he => ?_,
    fun rmatch v sm vm reqs req path pm hty hv hreq hpm hmem hany => ?_⟩
  · simp [crDefaultNamespace, schemaSpecColor, validate_crs_against_schema,
      _validate_object, _objErrs, _additionalErrs, _arrErrs, _validateProps,
      _validateUnknown, _validateItems, _typeFails, _typeErrMsg, stypeOf,
      _enumErrs, _patternErrs, _minErrs, _maxErrs, _requiredErrs,
      _unknownFieldErrs, dGet, dGetOpt, hasKey, truthy, pyMem, pyEq,
      pyEqList, pyEqSub, atErr, crErrPrefix, pyStr, pyNum, _check_type]
    decide
  · unfold validate_crs_against_schema at he
    obtain ⟨cr, hcr, hin⟩ := List.mem_flatMap.mp he
    refine ⟨cr, hcr, ?_⟩
    split at hin
    case _ cm =>
      split at hin
      case _ md hmd =>
        obtain ⟨err, herr, hform⟩ := List.mem_map.mp hin
        obtain ⟨p, m, hpm'⟩ := validate_object_errors_shape rmatch
          (.map cm) schema "" err herr
        exact ⟨cm, md, rfl, hmd, p, m, by rw [←hform, hpm']⟩
      case _ => simp at hin
    case _ => simp at hin
  · subst hv
    rw [_validate_object]
    have htf : _typeFails (.map vm) sm = false := by
      rw [_typeFails, hty]
      rfl
    rw [if_neg (by rw [htf]; exact Bool.false_ne_true)]
    refine List.mem_append.mpr (Or.inl ?_)
    refine List.mem_append.mpr (Or.inr ?_)
    rw [_objErrs]
    have hst : pyEq (stypeOf sm) (.str "object") = true := by
      rw [stypeOf, hty]
      rfl
    rw [if_pos hst]
    split
    case _ pm' hpm' =>
      refine List.mem_append.mpr (Or.inl ?_)
      refine List.mem_append.mpr (Or.inl ?_)
      rw [_requiredErrs, hreq]
      refine List.mem_filterMap.mpr ⟨req, hmem, ?_⟩
      rw [if_neg (by rw [hany]; exact Bool.false_ne_true)]
    case _ hne =>
      rw [hpm] at hne
      exact (hne pm rfl).elim

/-- Witness for C6 (amended) at concrete inputs: the schema node requiring
`color` against an empty mapping emits the required-field error, and the
wrapper prefixes it with `default/my-widget`. -/
theorem validate_crs_format_spec_witness :
    validate_crs_against_schema rmTrue [crDefaultNamespace] schemaSpecColor =
      ["default/my-widget: At 'spec': missing required field 'color'"] ∧
    atErr "spec" "missing required field 'color'" ∈
      _validate_object rmTrue (.map [])
        (.map [("type", .str "object"),
               ("required", .list [.str "color"]),
               ("properties", .map [("color",
                 .map [("type", .str "string")])])]) "spec" := by
  constructor
  · exact validate_crs_format_spec.1 rmTrue
  · have h := validate_crs_format_spec.2.2 rmTrue (.map [])
      [("type", .str "object"),
       ("required", .list [.str "color"]),
       ("properties", .map [("color", .map [("type", .str "string")])])]
      [] [.str "color"] (.str "color") "spec"
      [("color", .map [("type", .str "string")])]
      rfl rfl rfl rfl (List.mem_singleton.mpr rfl) rfl
    simpa using h

/-- C9 counterexample: the claim says a conflict naming both releases is
returned whenever the manager is `helm` and the detected release differs
from the current one.  With detected release `""` (an empty
`meta.helm.sh/release-name` annotation) and current release `"myrel"` the
releases differ, yet the check returns no conflict: the source guard
`if expected_release and ownership.release and ...` treats the empty string
as false. -/
theorem check_crd_ownership_empty_release_counterexample :
    check_crd_ownership_of "widgets.example.com"
      { manager := "helm", release := some "", app := none }
      (some "myrel") = none ∧
    ("" : String) ≠ "myrel" :=
  ⟨rfl, by decide⟩

/-- C9 (amended): no conflict when the detected manager is `unknown`; a
"managed by X, not Helm" conflict when the manager is neither `unknown` nor
`helm`; and for manager `helm`, a conflict naming both releases exactly
when the detected release and the current release name are both present
and non-empty and differ — in every other helm case (absent or empty
release on either side, or equal releases) no conflict. -/
theorem check_crd_ownership_of_spec (name : String) (own : OwnershipInfo)
    (er : Option String) :
    (own.manager = "unknown" → check_crd_ownership_of name own er = none) ∧
    (own.manager ≠ "unknown" → own.manager ≠ "helm" →
      check_crd_ownership_of name own er =
        some ("CRD '" ++ name ++ "' is managed by " ++ own.manager ++
          (match own.app with
           | some a => if !a.isEmpty then " (app: " ++ a ++ ")" else ""
           | none => "") ++ ", not Helm")) ∧
    (∀ r e, own.manager = "helm" → own.release = some r → er = some e →
      r ≠ "" → e ≠ "" → r ≠ e →
      check_crd_ownership_of name own er =
        some ("CRD '" ++ name ++ "' is owned by Helm release '" ++ r ++
          "', not the current release '" ++ e ++ "'")) ∧
    (own.manager = "helm" →
      (own.release = none ∨ own.release = some "" ∨ er = none ∨
        er = some "" ∨ own.release = er) →
      check_crd_ownership_of name own er = none) := by
  refine ⟨fun h => ?_, fun h1 h2 => ?_, fun r e hm hr her hrne hene hne => ?_,
    fun hm hcase => ?_⟩
  · simp [check_crd_ownership_of, h]
  · have hb1 : (own.manager == "unknown") = false := by
      simp [h1]
    have hbne : (own.manager != "helm") = true := by
      simp [bne, h2]
    simp only [check_crd_ownership_of, hb1, hbne, Bool.false_eq_true,
      if_false, if_true]
  · have hre : e.isEmpty = false := by
      cases he : e.isEmpty
      · rfl
      · exact absurd ((String.isEmpty_iff e).mp he) hene
    have hrr : r.isEmpty = false := by
      cases hri : r.isEmpty
      · rfl
      · exact absurd ((String.isEmpty_iff r).mp hri) hrne
    have hbne : (r != e) = true := bne_iff_ne.mpr hne
    simp [check_crd_ownership_of, hm, hr, her, hre, hrr, hbne]
  · rcases hcase with hc | hc | hc | hc | hc
    · cases er <;> simp [check_crd_ownership_of, hm, hc]
    · cases er <;>
        simp [check_crd_ownership_of, hm, hc,
          show ("" : String).isEmpty = true from rfl]
    · simp [check_crd_ownership_of, hm, hc]
    · subst hc
      cases hrel : own.release with
      | none => simp [check_crd_ownership_of, hm, hrel]
      | some v =>
        simp [check_crd_ownership_of, hm, hrel,
          show ("" : String).isEmpty = true from rfl]
    · cases her : er with
      | none => simp [check_crd_ownership_of, hm, her]
      | some e =>
        rw [her] at hc
        simp [check_crd_ownership_of, hm, hc, her]

/-- Witness for C9 at the three managers. -/
theorem check_crd_ownership_of_spec_witness :
    check_crd_ownership_of "w"
      { manager := "unknown", release := none, app := none }
      (some "rel") = none ∧
    check_crd_ownership_of "w"
      { manager := "argocd", release := none, app := some "myapp" }
      (some "rel") =
      some "CRD 'w' is managed by argocd (app: myapp), not Helm" ∧
    check_crd_ownership_of "w"
      { manager := "helm", release := some "other", app := none }
      (some "rel") =
      some "CRD 'w' is owned by Helm release 'other', not the current release 'rel'" := by
  refine ⟨?_, ?_, ?_⟩
  · exact (check_crd_ownership_of_spec "w"
      ⟨"unknown", none, none⟩ (some "rel")).1 rfl
  · have h := (check_crd_ownership_of_spec "w"
      ⟨"argocd", none, some "myapp"⟩ (some "rel")).2.1 (by decide) (by decide)
    simpa using h
  · have h := (check_crd_ownership_of_spec "w"
      ⟨"helm", some "other", none⟩ (some "rel")).2.2.1 "other" "rel"
      rfl rfl rfl (by decide) (by decide) (by decide)
    simpa using h

/-- C8 counterexample: the claim says an IO/parse error on a chart `crds/`
file is logged to the report's warnings.  Running the pipeline over a chart
directory whose first file fails to read leaves `warnings` empty — nothing
about the failure is recorded — while extraction continued with the
remaining files (the second file's CRD was picked up). -/
theorem chart_file_error_counterexample :
    (run_crd_pipeline engTest rmTrue envC8 []
      (some [.error "while parsing a block mapping: boom", .ok [crdProposedA]])
      .WARN (some "rel")).warnings = [] ∧
    crd_proposed []
      (some [.error "while parsing a block mapping: boom", .ok [crdProposedA]]) =
      [crdProposedA] :=
  ⟨rfl, rfl⟩

/-- C8 (amended): an IO or YAML-parse error on a chart `crds/` file causes
the file to be skipped *silently* — it contributes nothing to the extracted
CRDs and nothing at all to the pipeline's report (no warning is logged);
extraction continues with the remaining files. -/
theorem chart_file_errors_silently_skipped
    (xs ys : List (Except String (List Resource))) (e : String) :
    extract_crds_from_chart_dir (xs ++ .error e :: ys) =
      extract_crds_from_chart_dir (xs ++ ys) ∧
    ∀ eng rmatch E us mode rel,
      run_crd_pipeline eng rmatch E us (some (xs ++ .error e :: ys)) mode rel =
        run_crd_pipeline eng rmatch E us (some (xs ++ ys)) mode rel := by
  have hext : extract_crds_from_chart_dir (xs ++ .error e :: ys) =
      extract_crds_from_chart_dir (xs ++ ys) := by
    unfold extract_crds_from_chart_dir
    rw [List.foldl_append, List.foldl_append, List.foldl_cons]
  refine ⟨hext, fun eng rmatch E us mode rel => ?_⟩
  have hcp : crd_proposed us (some (xs ++ .error e :: ys)) =
      crd_proposed us (some (xs ++ ys)) := by
    simp only [crd_proposed]
    rw [hext]
  simp only [run_crd_pipeline, crd_installed_relevant, hcp]

/-! ### The pair list and the diff loop (towards C10) -/

/-- Folding the `{r.name: r}` dictionary construction keeps the invariant
that the accumulator, when present, bears the looked-up name. -/
theorem foldl_lastWithName_name (n : String) (rs : List Resource) :
    ∀ acc : Option Resource, (∀ r, acc = some r → r.name = n) →
    ∀ r, rs.foldl (fun a r => if r.name == n then some r else a) acc = some r →
    r.name = n := by
  induction rs with
  | nil => intro acc hacc r h; exact hacc r h
  | cons hd tl ih =>
    intro acc hacc r h
    rw [List.foldl_cons] at h
    refine ih _ ?_ r h
    intro r' hr'
    by_cases hh : (hd.name == n) = true
    · rw [if_pos hh] at hr'
      injection hr' with h2
      subst h2
      exact eq_of_beq hh
    · rw [if_neg hh] at hr'
      exact hacc r' hr'

/-- A hit of the `{r.name: r}.get(n)` lookup bears the looked-up name. -/
theorem lastWithName_name {rs : List Resource} {n : String} {r : Resource}
    (h : lastWithName rs n = some r) : r.name = n := by
  unfold lastWithName at h
  exact foldl_lastWithName_name n rs none (fun r h => Option.noConfusion h) r h

/-- The lookup hits as soon as the name occurs in the list (or the
accumulator already holds something). -/
theorem foldl_lastWithName_isSome (n : String) (rs : List Resource) :
    ∀ acc : Option Resource,
    (n ∈ rs.map (fun r => r.name) ∨ acc.isSome = true) →
    (rs.foldl (fun a r => if r.name == n then some r else a) acc).isSome
      = true := by
  induction rs with
  | nil =>
    intro acc h
    rcases h with h | h
    · simp at h
    · exact h
  | cons hd tl ih =>
    intro acc h
    rw [List.foldl_cons]
    by_cases hh : (hd.name == n) = true
    · refine ih _ (Or.inr ?_)
      rw [if_pos hh]
      rfl
    · refine ih _ ?_
      rcases h with h | h
      · rw [List.map_cons, List.mem_cons] at h
        rcases h with h | h
        · exact absurd (beq_iff_eq.mpr h.symm) hh
        · exact Or.inl h
      · refine Or.inr ?_
        rw [if_neg hh]
        exact h

/-- `{r.name: r}.get(n)` hits whenever `n` is among the names. -/
theorem lastWithName_isSome {rs : List Resource} {n : String}
    (h : n ∈ rs.map (fun r => r.name)) : (lastWithName rs n).isSome = true := by
  unfold lastWithName
  exact foldl_lastWithName_isSome n rs none (Or.inl h)

/-- Elements of the `dict.fromkeys` fold come from the accumulator or the
input list. -/
theorem foldl_dedup_subset (l : List String) :
    ∀ (acc : List String) (x : String),
    x ∈ l.foldl (fun a y => if a.contains y then a else a ++ [y]) acc →
    x ∈ acc ∨ x ∈ l := by
  induction l with
  | nil => intro acc x h; exact Or.inl h
  | cons hd tl ih =>
    intro acc x h
    rw [List.foldl_cons] at h
    rcases ih _ x h with h' | h'
    · by_cases hc : (acc.contains hd) = true
      · rw [if_pos hc] at h'
        exact Or.inl h'
      · rw [if_neg hc] at h'
        rcases List.mem_append.mp h' with h'' | h''
        · exact Or.inl h''
        · rw [List.mem_singleton] at h''
          subst h''
          exact Or.inr (List.mem_cons_self _ _)
    · exact Or.inr (List.mem_cons_of_mem _ h')

/-- `list(dict.fromkeys(l))` only contains elements of `l`. -/
theorem dedupNames_subset {l : List String} {x : String}
    (h : x ∈ dedupNames l) : x ∈ l := by
  unfold dedupNames at h
  rcases foldl_dedup_subset l [] x h with h' | h'
  · cases h'
  · exact h'

/-- Every pair `pair_crds` builds for a name of the merged key sequence is
named after that name: `(pair.new or pair.old).name` recovers the key. -/
theorem pairName_buildPair (installed proposed : List Resource) (n : String)
    (hmem : n ∈ installed.map (fun r => r.name) ++
      proposed.map (fun r => r.name)) :
    pairName (buildPair installed proposed n) = n := by
  unfold buildPair
  cases hi : lastWithName installed n with
  | none =>
    cases hp : lastWithName proposed n with
    | none =>
      exfalso
      rcases List.mem_append.mp hmem with h | h
      · have hs := lastWithName_isSome h
        rw [hi] at hs
        exact Bool.noConfusion hs
      · have hs := lastWithName_isSome h
        rw [hp] at hs
        exact Bool.noConfusion hs
    | some w => exact lastWithName_name hp
  | some o =>
    cases hp : lastWithName proposed n with
    | none => exact lastWithName_name hi
    | some w =>
      show pairName
        (if pyEq (Node.map o.body) (Node.map w.body) = true then
          { old := some o, new := some w, status := "unchanged" }
        else
          { old := some o, new := some w, status := "changed" }) = n
      split
      · exact lastWithName_name hp
      · exact lastWithName_name hp

/-- Every pair of the pipeline's pair list is built from a merged key, and
its `pairName` is that key; hence two pairs of the list with the same
`pairName` are equal. -/
theorem mem_crd_pairs {E : PipelineEnv} {us : List Resource}
    {files : Option (List (Except String (List Resource)))} {p : ResourcePair}
    (h : p ∈ crd_pairs E us files) :
    ∃ m, p = buildPair (crd_installed_relevant E us files)
        (crd_proposed us files) m ∧ pairName p = m := by
  unfold crd_pairs pair_crds at h
  rcases List.mem_map.mp h with ⟨m, hm, hpm⟩
  refine ⟨m, hpm.symm, ?_⟩
  rw [← hpm]
  exact pairName_buildPair _ _ m (dedupNames_subset hm)

/-- A hit of the diff loop returns its input pair, and when that pair is
`changed` the accompanying change list is non-empty (the loop dropped it
otherwise). -/
theorem diff_one_some_fst {eng : DiffEngine} {p q : ResourcePair}
    {chs : List FieldChange} (h : diff_one eng p = some (q, chs)) :
    q = p ∧ (p.status = "changed" → chs ≠ []) := by
  unfold diff_one at h
  split at h
  next h1 =>
    obtain ⟨hq, hc⟩ := Prod.mk.inj (Option.some.inj h)
    refine ⟨hq.symm, fun hs => ?_⟩
    rw [hs] at h1
    exact absurd h1 (by decide)
  next h1 =>
    split at h
    next => exact Option.noConfusion h
    next h2 =>
      split at h
      next o w ho hn =>
        simp only [] at h
        split at h
        next => exact Option.noConfusion h
        next hsem =>
          split at h
          next => exact Option.noConfusion h
          next hne =>
            obtain ⟨hq, hc⟩ := Prod.mk.inj (Option.some.inj h)
            refine ⟨hq.symm, fun _ hnil => ?_⟩
            rw [hc, hnil] at hne
            exact hne rfl
      next => exact Option.noConfusion h

/-- A changed pair whose noise-stripped, normalized bodies the engine deems
semantically equal is dropped by the diff loop. -/
theorem diff_one_semeq_none {eng : DiffEngine} {p : ResourcePair}
    {o w : Resource} (ho : p.old = some o) (hn : p.new = some w)
    (hs : p.status = "changed")
    (hsem : eng.is_semantically_equal
        (eng.normalize_body (eng.strip_noise o.body CRD_NOISE_PATHS))
        (eng.normalize_body (eng.strip_noise w.body CRD_NOISE_PATHS))
      = true) :
    diff_one eng p = none := by
  unfold diff_one
  rw [hs, ho, hn]
  simp [hsem]

/-- The `crds` list of the pipeline's report is the diff results of the
pair list, mapped through the detail builder (empty when no CRDs are
proposed). -/
theorem run_crds_eq (eng : DiffEngine) (rmatch : String → String → Option Bool)
    (E : PipelineEnv) (us : List Resource)
    (files : Option (List (Except String (List Resource))))
    (mode : CrdPolicyMode) (rel : Option String) :
    (run_crd_pipeline eng rmatch E us files mode rel).crds =
      if (crd_proposed us files).isEmpty then []
      else (diff_crds eng (crd_pairs E us files)).map
        (mk_crd_detail rmatch E rel) := by
  by_cases hp : (crd_proposed us files).isEmpty = true
  · simp [run_crd_pipeline, hp]
  · simp [run_crd_pipeline, crd_pairs, hp]

/-- **C10**: in every report `run_crd_pipeline` produces, (a) a
`CrdChangeDetail` with status `changed` has a non-empty `changes` list, and
(b) a paired CRD with both sides present and status `changed` (the bodies
differ textually) whose noise-stripped, normalized bodies the diff engine
deems semantically equal yields no `CrdChangeDetail` at all: no detail of
the report bears that pair's name, so it appears neither as changed nor as
unchanged. -/
theorem pipeline_semantic_invariants (eng : DiffEngine)
    (rmatch : String → String → Option Bool) (E : PipelineEnv)
    (us : List Resource) (files : Option (List (Except String (List Resource))))
    (mode : CrdPolicyMode) (rel : Option String) :
    (∀ d ∈ (run_crd_pipeline eng rmatch E us files mode rel).crds,
        d.status = "changed" → d.changes ≠ []) ∧
    (∀ p ∈ crd_pairs E us files, ∀ o w : Resource,
        p.old = some o → p.new = some w → p.status = "changed" →
        eng.is_semantically_equal
            (eng.normalize_body (eng.strip_noise o.body CRD_NOISE_PATHS))
            (eng.normalize_body (eng.strip_noise w.body CRD_NOISE_PATHS))
          = true →
        ∀ d ∈ (run_crd_pipeline eng rmatch E us files mode rel).crds,
          d.name ≠ pairName p) := by
  constructor
  · intro d hd hds
    rw [run_crds_eq] at hd
    by_cases hpe : (crd_proposed us files).isEmpty = true
    · rw [if_pos hpe] at hd
      cases hd
    · rw [if_neg hpe] at hd
      rcases List.mem_map.mp hd with ⟨pc, hpc, hdq⟩
      obtain ⟨q, chs⟩ := pc
      subst hdq
      unfold diff_crds at hpc
      rcases List.mem_filterMap.mp hpc with ⟨p2, hp2, hsome⟩
      obtain ⟨hq, himp⟩ := diff_one_some_fst hsome
      have hst : q.status = "changed" := hds
      rw [hq] at hst
      show chs ≠ []
      exact himp hst
  · intro p hp o w ho hn hs hsem d hd heq
    rw [run_crds_eq] at hd
    by_cases hpe : (crd_proposed us files).isEmpty = true
    · rw [if_pos hpe] at hd
      cases hd
    · rw [if_neg hpe] at hd
      rcases List.mem_map.mp hd with ⟨pc, hpc, hdq⟩
      obtain ⟨q, chs⟩ := pc
      subst hdq
      unfold diff_crds at hpc
      rcases List.mem_filterMap.mp hpc with ⟨p2, hp2, hsome⟩
      obtain ⟨hq, _⟩ := diff_one_some_fst hsome
      subst hq
      have heq2 : pairName q = pairName p := heq
      rcases mem_crd_pairs hp with ⟨m1, hpm1, hname1⟩
      rcases mem_crd_pairs hp2 with ⟨m2, hpm2, hname2⟩
      have hm : m2 = m1 := by rw [← hname2, ← hname1, heq2]
      have hpp : q = p := by rw [hpm2, hpm1, hm]
      rw [hpp] at hsome
      rw [diff_one_semeq_none ho hn hs hsem] at hsome
      exact Option.noConfusion hsome

/-- C10 witness: on the concrete installed/proposed CRDs the pipeline's
pair is `changed`; under `engC10` it yields the detail `detailC10`, whose
change list part (a) of the theorem proves non-empty; under `engAllEqual`
(which deems every pair semantically equal) the report's `crds` list is
empty. -/
theorem pipeline_semantic_invariants_witness :
    detailC10.status = "changed" ∧ detailC10.changes ≠ [] ∧
    pairC10.status = "changed" ∧
    (run_crd_pipeline engAllEqual rmTrue envC8 [crdProposedA] none .WARN
        (some "rel")).crds = [] := by
  have hcrds : (run_crd_pipeline engC10 rmTrue envC8 [crdProposedA] none .WARN
      (some "rel")).crds = [detailC10] := rfl
  have hmemd : detailC10 ∈ (run_crd_pipeline engC10 rmTrue envC8 [crdProposedA]
      none .WARN (some "rel")).crds := by
    rw [hcrds]
    exact List.mem_singleton_self _
  refine ⟨rfl, ?_, rfl, rfl⟩
  exact (pipeline_semantic_invariants engC10 rmTrue envC8 [crdProposedA] none
    .WARN (some "rel")).1 detailC10 hmemd rfl

/-! ### The exit code of the `diff` command (towards C2) -/

/-- The `blocked` field of `evaluate_policy`: set exactly under the `fail`
mode with a non-empty DANGER sublist. -/
theorem evaluate_policy_blocked (r : CrdReport) (mode : CrdPolicyMode) :
    (evaluate_policy r mode).blocked =
      (decide (mode = CrdPolicyMode.FAIL) &&
        !(r.crds.filter (fun c => c.max_risk matches RiskLevel.DANGER)).isEmpty) := by
  cases mode with
  | IGNORE => rfl
  | WARN => rfl
  | FAIL =>
    by_cases hd : (r.crds.filter
        (fun c => c.max_risk matches RiskLevel.DANGER)).isEmpty = true
    · by_cases hw : (r.crds.filter
          (fun c => c.max_risk matches RiskLevel.WARNING)).isEmpty = true
      · simp [evaluate_policy, hd, hw]
      · simp [evaluate_policy, hd, hw]
    · simp [evaluate_policy, hd]

/-- Emptiness of a filtered map is unchanged when the two mapped functions
agree under the filter predicate. -/
theorem filter_isEmpty_map_congr {α β : Type} (p : β → Bool) (g1 g2 : α → β)
    (hp : ∀ x, p (g1 x) = p (g2 x)) (l : List α) :
    ((l.map g1).filter p).isEmpty = ((l.map g2).filter p).isEmpty := by
  induction l with
  | nil => rfl
  | cons hd tl ih =>
    simp only [List.map_cons, List.filter_cons, hp hd]
    by_cases hc : p (g2 hd) = true
    · simp [hc]
    · simp [hc, ih]

/-- The pipeline's report blocks exactly when the mode is `fail` and the
report's detail list has a DANGER-level entry. -/
theorem blockedOf_run (eng : DiffEngine) (rm : String → String → Option Bool)
    (E : PipelineEnv) (us : List Resource)
    (files : Option (List (Except String (List Resource))))
    (mode : CrdPolicyMode) (rel : Option String) :
    blockedOf (run_crd_pipeline eng rm E us files mode rel) =
      (decide (mode = CrdPolicyMode.FAIL) &&
        !((run_crd_pipeline eng rm E us files mode rel).crds.filter
            (fun c => c.max_risk matches RiskLevel.DANGER)).isEmpty) := by
  by_cases hp : (crd_proposed us files).isEmpty = true
  · simp [run_crd_pipeline, blockedOf, evaluate_policy_blocked, hp]
  · simp [run_crd_pipeline, blockedOf, evaluate_policy_blocked, hp]

/-- The CR-fetch outcome does not influence whether the pipeline's report
blocks: risk classification never looks at the fetched CRs. -/
theorem blockedOf_pipeline_fetch_irrelevant (eng : DiffEngine)
    (rm : String → String → Option Bool) (E : PipelineEnv)
    (f : String → Except RunError (List Node)) (us : List Resource)
    (files : Option (List (Except String (List Resource))))
    (mode : CrdPolicyMode) (rel : Option String) :
    blockedOf (run_crd_pipeline eng rm { E with fetch_crs := f } us files
        mode rel) =
      blockedOf (run_crd_pipeline eng rm E us files mode rel) := by
  rw [blockedOf_run, blockedOf_run, run_crds_eq, run_crds_eq]
  by_cases hp : (crd_proposed us files).isEmpty = true
  · rw [if_pos hp, if_pos hp]
  · rw [if_neg hp, if_neg hp]
    have hpairs : crd_pairs { E with fetch_crs := f } us files =
        crd_pairs E us files := rfl
    rw [hpairs]
    have hp2 : ∀ pc : ResourcePair × List FieldChange,
        ((mk_crd_detail rm { E with fetch_crs := f } rel pc).max_risk matches
          RiskLevel.DANGER) =
        ((mk_crd_detail rm E rel pc).max_risk matches RiskLevel.DANGER) :=
      fun pc => rfl
    rw [filter_isEmpty_map_congr (fun c => c.max_risk matches RiskLevel.DANGER)
      (mk_crd_detail rm { E with fetch_crs := f } rel) (mk_crd_detail rm E rel)
      hp2 (diff_crds eng (crd_pairs E us files))]

/-- With no installed CRDs every pair is an addition. -/
theorem pair_crds_nil_installed (proposed : List Resource) (p : ResourcePair)
    (hp : p ∈ pair_crds [] proposed) : p.status = "added" := by
  unfold pair_crds at hp
  rcases List.mem_map.mp hp with ⟨m, _, hpm⟩
  rw [← hpm]
  rfl

/-- A diff hit whose pair is an addition carries no changes. -/
theorem diff_one_added_nil {eng : DiffEngine} {p q : ResourcePair}
    {chs : List FieldChange} (hst : p.status = "added")
    (h : diff_one eng p = some (q, chs)) : chs = [] := by
  unfold diff_one at h
  rw [hst] at h
  rw [if_pos (by decide)] at h
  obtain ⟨hq, hc⟩ := Prod.mk.inj (Option.some.inj h)
  exact hc.symm

/-- When CRD discovery fails, the installed set is empty, every pair is an
addition with no changes, every detail is SAFE, and the report never
blocks. -/
theorem blockedOf_run_discovery_error (eng : DiffEngine)
    (rm : String → String → Option Bool) (E : PipelineEnv) (e : RunError)
    (he : E.kubectl_get_crds = .error e) (us : List Resource)
    (files : Option (List (Except String (List Resource))))
    (mode : CrdPolicyMode) (rel : Option String) :
    blockedOf (run_crd_pipeline eng rm E us files mode rel) = false := by
  rw [blockedOf_run, run_crds_eq]
  have hinst : crd_installed_relevant E us files = [] := by
    unfold crd_installed_relevant discover_cluster_crds
    rw [he]
    rfl
  by_cases hp : (crd_proposed us files).isEmpty = true
  · rw [if_pos hp]
    simp
  · rw [if_neg hp]
    have hfil : ((diff_crds eng (crd_pairs E us files)).map
        (mk_crd_detail rm E rel)).filter
          (fun c => c.max_risk matches RiskLevel.DANGER) = [] := by
      rw [List.filter_eq_nil_iff]
      intro d hd
      rcases List.mem_map.mp hd with ⟨pc, hpc, hdq⟩
      obtain ⟨q, chs⟩ := pc
      unfold diff_crds at hpc
      rcases List.mem_filterMap.mp hpc with ⟨p2, hp2, hsome⟩
      have hst : p2.status = "added" := by
        have hpairs : crd_pairs E us files =
            pair_crds [] (crd_proposed us files) := by
          unfold crd_pairs
          rw [hinst]
        rw [hpairs] at hp2
        exact pair_crds_nil_installed _ _ hp2
      have hchs : chs = [] := diff_one_added_nil hst hsome
      subst hchs
      rw [← hdq]
      intro hcon
      exact Bool.noConfusion hcon
    rw [hfil]
    simp

/-- When every per-resource server-side dry run fails, `_apply_server_side`
falls back to the client-rendered resources unchanged. -/
theorem apply_server_side_all_fail (E : CliEnv)
    (hall : ∀ r, ∃ e, E.server_side_dry_run r = Except.error e)
    (rs : List Resource) : _apply_server_side E rs = rs := by
  unfold _apply_server_side
  induction rs with
  | nil => rfl
  | cons hd tl ih =>
    rw [List.map_cons]
    rcases hall hd with ⟨e, he⟩
    simp [he, ih]

/-- A failing live-manifest fetch exits 1 before anything else runs. -/
theorem diff_command_manifest_error (eng : DiffEngine)
    (rm : String → String → Option Bool) (E : CliEnv) (o : CliOpts)
    (e : RunError) (hg : E.get_manifest = .error e) :
    diff_command eng rm E o = 1 := by
  unfold diff_command
  rw [hg]

/-- A failing dry-run render exits 1. -/
theorem diff_command_dry_run_error (eng : DiffEngine)
    (rm : String → String → Option Bool) (E : CliEnv) (o : CliOpts)
    (live : List Resource) (e : RunError) (hg : E.get_manifest = .ok live)
    (hd : E.dry_run_upgrade = .error e) : diff_command eng rm E o = 1 := by
  unfold diff_command
  rw [hg, hd]

/-- With a successful primary path the exit code is determined by
`check_crds` and the report's `blocked` flag. -/
theorem diff_command_eq (eng : DiffEngine)
    (rm : String → String → Option Bool) (E : CliEnv) (o : CliOpts)
    (live us : List Resource) (hg : E.get_manifest = .ok live)
    (hd : E.dry_run_upgrade = .ok us) :
    diff_command eng rm E o =
      (if o.check_crds = true ∧
          blockedOf (run_crd_pipeline eng rm E.toPipelineEnv
            (if o.server_side then _apply_server_side E us else us)
            (if !o.chart.isEmpty then some E.chart_files else none)
            o.crd_policy (some o.release)) = true
        then 1 else 0) := by
  unfold diff_command
  rw [hg, hd]
  by_cases hc : o.check_crds = true
  · simp [hc]
  · simp [hc]

/-- An exit code built by an if is 0 or 1. -/
theorem ite_zero_one (c : Prop) [inst : Decidable c] :
    (if c then (1 : Int) else 0) = 0 ∨ (if c then (1 : Int) else 0) = 1 := by
  by_cases h : c
  · exact Or.inr (if_pos h)
  · exact Or.inl (if_neg h)

/-- An exit code built by an if equals 1 only when its condition holds. -/
theorem eq_one_of_ite {c : Prop} [inst : Decidable c]
    (h : (if c then (1 : Int) else 0) = 1) : c := by
  by_cases hc : c
  · exact hc
  · rw [if_neg hc] at h
    exact absurd h (by decide)

/-- **C2**: the `diff` command exits 0 or 1; it exits 1 exactly when the
live-manifest fetch or the dry-run render raises `RunError`, or CRD
checking is on and the assembled report's policy result blocks.  The
degradable failures never force a non-zero exit by themselves: a failing
CRD discovery yields exit 0 whenever the primary path succeeds, the CR
fetch outcome never changes the exit code, and when every per-resource
server-side dry run fails the exit code equals that of the run without
`--server-side-diff`. -/
theorem diff_command_exit_spec (eng : DiffEngine)
    (rmatch : String → String → Option Bool) (E : CliEnv) (o : CliOpts) :
    (diff_command eng rmatch E o = 0 ∨ diff_command eng rmatch E o = 1) ∧
    (diff_command eng rmatch E o = 1 ↔
      (∃ e, E.get_manifest = .error e) ∨
      (∃ e, E.dry_run_upgrade = .error e) ∨
      (∃ us, E.dry_run_upgrade = .ok us ∧ o.check_crds = true ∧
        blockedOf (run_crd_pipeline eng rmatch E.toPipelineEnv
          (if o.server_side then _apply_server_side E us else us)
          (if !o.chart.isEmpty then some E.chart_files else none)
          o.crd_policy (some o.release)) = true)) ∧
    ((∃ e, E.kubectl_get_crds = .error e) →
      (∃ live, E.get_manifest = .ok live) →
      (∃ us, E.dry_run_upgrade = .ok us) →
      diff_command eng rmatch E o = 0) ∧
    (∀ f : String → Except RunError (List Node),
      diff_command eng rmatch { E with fetch_crs := f } o =
        diff_command eng rmatch E o) ∧
    ((∀ r, ∃ e, E.server_side_dry_run r = Except.error e) →
      diff_command eng rmatch E o =
        diff_command eng rmatch E { o with server_side := false }) := by
  have hcases : ∀ v : Except RunError (List Resource),
      (∃ e, v = .error e) ∨ (∃ l, v = .ok l) := by
    intro v
    cases v with
    | error e => exact Or.inl ⟨e, rfl⟩
    | ok l => exact Or.inr ⟨l, rfl⟩
  refine ⟨?_, ?_, ?_, ?_, ?_⟩
  · rcases hcases E.get_manifest with ⟨e, hg⟩ | ⟨live, hg⟩
    · rw [diff_command_manifest_error eng rmatch E o e hg]
      exact Or.inr rfl
    · rcases hcases E.dry_run_upgrade with ⟨e, hd⟩ | ⟨us, hd⟩
      · rw [diff_command_dry_run_error eng rmatch E o live e hg hd]
        exact Or.inr rfl
      · rw [diff_command_eq eng rmatch E o live us hg hd]
        exact ite_zero_one _
  · rcases hcases E.get_manifest with ⟨e, hg⟩ | ⟨live, hg⟩
    · rw [diff_command_manifest_error eng rmatch E o e hg]
      constructor
      · intro _
        exact Or.inl ⟨e, hg⟩
      · intro _
        rfl
    · rcases hcases E.dry_run_upgrade with ⟨e, hd⟩ | ⟨us, hd⟩
      · rw [diff_command_dry_run_error eng rmatch E o live e hg hd]
        constructor
        · intro _
          exact Or.inr (Or.inl ⟨e, hd⟩)
        · intro _
          rfl
      · rw [diff_command_eq eng rmatch E o live us hg hd]
        constructor
        · intro h1
          have hcb := eq_one_of_ite h1
          exact Or.inr (Or.inr ⟨us, hd, hcb.1, hcb.2⟩)
        · intro h2
          rcases h2 with ⟨e, he⟩ | ⟨e, he⟩ | ⟨us2, hus2, hc, hb⟩
          · rw [hg] at he
            exact Except.noConfusion he
          · rw [hd] at he
            exact Except.noConfusion he
          · rw [hd] at hus2
            injection hus2 with hu
            subst hu
            exact if_pos ⟨hc, hb⟩
  · rintro ⟨e, he⟩ ⟨live, hg⟩ ⟨us, hd⟩
    rw [diff_command_eq eng rmatch E o live us hg hd]
    rw [blockedOf_run_discovery_error eng rmatch E.toPipelineEnv e he]
    simp
  · intro f
    rcases hcases E.get_manifest with ⟨e, hg⟩ | ⟨live, hg⟩
    · rw [diff_command_manifest_error eng rmatch E o e hg,
        diff_command_manifest_error eng rmatch { E with fetch_crs := f } o e
          (show ({ E with fetch_crs := f } : CliEnv).get_manifest = .error e
            from hg)]
    · rcases hcases E.dry_run_upgrade with ⟨e, hd⟩ | ⟨us, hd⟩
      · rw [diff_command_dry_run_error eng rmatch E o live e hg hd,
          diff_command_dry_run_error eng rmatch { E with fetch_crs := f } o
            live e
            (show ({ E with fetch_crs := f } : CliEnv).get_manifest = .ok live
              from hg)
            (show ({ E with fetch_crs := f } : CliEnv).dry_run_upgrade =
              .error e from hd)]
      · rw [diff_command_eq eng rmatch E o live us hg hd,
          diff_command_eq eng rmatch { E with fetch_crs := f } o live us
            (show ({ E with fetch_crs := f } : CliEnv).get_manifest = .ok live
              from hg)
            (show ({ E with fetch_crs := f } : CliEnv).dry_run_upgrade =
              .ok us from hd)]
        rw [show _apply_server_side { E with fetch_crs := f } us =
          _apply_server_side E us from rfl]
        rw [show ({ E with fetch_crs := f } : CliEnv).chart_files =
          E.chart_files from rfl]
        rw [show ({ E with fetch_crs := f } : CliEnv).toPipelineEnv =
          { E.toPipelineEnv with fetch_crs := f } from rfl]
        rw [blockedOf_pipeline_fetch_irrelevant eng rmatch E.toPipelineEnv f]
  · intro hall
    rcases hcases E.get_manifest with ⟨e, hg⟩ | ⟨live, hg⟩
    · rw [diff_command_manifest_error eng rmatch E o e hg,
        diff_command_manifest_error eng rmatch E
          { o with server_side := false } e hg]
    · rcases hcases E.dry_run_upgrade with ⟨e, hd⟩ | ⟨us, hd⟩
      · rw [diff_command_dry_run_error eng rmatch E o live e hg hd,
          diff_command_dry_run_error eng rmatch E
            { o with server_side := false } live e hg hd]
      · rw [diff_command_eq eng rmatch E o live us hg hd,
          diff_command_eq eng rmatch E { o with server_side := false } live us
            hg hd]
        rw [apply_server_side_all_fail E hall us]
        simp [ite_self]

/-- C2 witness: with a succeeding primary path and every degradable call
failing (discovery, CR fetch, server-side dry run), the command exits 0
even under the `fail` policy, and its exit equals that of the run without
`--server-side-diff`. -/
theorem diff_command_exit_spec_witness :
    diff_command engTest rmTrue cliEnvC2 cliOptsC2 = 0 ∧
    diff_command engTest rmTrue cliEnvC2 cliOptsC2 =
      diff_command engTest rmTrue cliEnvC2
        { cliOptsC2 with server_side := false } := by
  constructor
  · exact (diff_command_exit_spec engTest rmTrue cliEnvC2 cliOptsC2).2.2.1
      ⟨"forbidden", rfl⟩ ⟨[], rfl⟩ ⟨[crdProposedA], rfl⟩
  · exact (diff_command_exit_spec engTest rmTrue cliEnvC2 cliOptsC2).2.2.2.2
      (fun r => ⟨"conflict", rfl⟩)
